import Mathlib

/-!
Verification of the Checker structural matching engine
(`tools/checker/match/file.py` of the ART repository).

The Python source is shallowly embedded: the mutable `ExecutionState`
object becomes a record threaded explicitly through each handler, and a
Python exception becomes the `some`-component of a `StepResult` which
also carries the state as the exception leaves it (Python mutations that
happened before the raise survive, so the post-raise state is part of
the model).  The two external capabilities imported by the source
(`MatchLines` from `match.line` and `EvaluateLine`) are abstract
function parameters, exactly as the spec treats them ("external
capability ... pure, deterministic, side-effect free").

Machine details mirrored from the source:
  * `for i in range(a, b)` is the walk over `List.range' a (b - a)`;
  * `c1Pass.body[i]` is `List.get?` with an explicit `indexError`
    when the index is out of range (Python raises `IndexError`);
  * `assert` is an explicit `assertionError` branch;
  * `min([])` / `max([])` would raise `ValueError`, kept as an explicit
    (dead) `valueError` branch;
  * Python `None` stored into the `variables` slot by `handleEOF` is a
    distinguished parameter `noneVars`.
-/

namespace Checker

/-- The statement variants of `TestStatement.Variant`
(`file_format/checker/struct.py`, used by dispatch in `match/file.py`). -/
inductive Variant where
  | InOrder
  | NextLine
  | DAG
  | Not
  | Eval
deriving DecidableEq

/-- A checker statement: the variant tag plus an abstract pattern/expression
payload of type `σ` (the source's `TestStatement` carries the parsed
pattern; only the variant is ever inspected by `match/file.py`). -/
structure TestStatement (σ : Type) where
  variant : Variant
  payload : σ
deriving DecidableEq

/-- Python `MatchScope = namedtuple("MatchScope", ["start", "end"])`.
The second field is called `stop` here because `end` is a Lean keyword. -/
structure MatchScope where
  start : Nat
  stop : Nat
deriving DecidableEq

/-- Python `MatchInfo = namedtuple("MatchInfo", ["scope", "variables"])`. -/
structure MatchInfo (ν : Type) where
  scope : MatchScope
  vars : ν
deriving DecidableEq

/-- The payload of `MatchFailedException`. -/
structure MatchFailedException (σ ν : Type) where
  statement : TestStatement σ
  lineNo : Nat
  vars : ν
deriving DecidableEq

/-- The exceptions that can escape the matching code: the source's own
`MatchFailedException`, plus the Python built-ins it can implicitly raise
(`IndexError` from list indexing, `AssertionError` from `assert`,
`ValueError` from `min`/`max` of an empty list). -/
inductive PyError (σ ν : Type) where
  | matchFailed (e : MatchFailedException σ ν)
  | indexError
  | assertionError
  | valueError
deriving DecidableEq

/-- The `ExecutionState`: cursor, the pass body (`c1Pass.body`), the cached
`c1Length`, current variable bindings, and the two buffered queues. -/
structure ExecutionState (σ L ν : Type) where
  cursor : Nat
  body : List L
  c1Length : Nat
  vars : ν
  dagQueue : List (TestStatement σ)
  notQueue : List (TestStatement σ)
deriving DecidableEq

/-- Python `ExecutionState.__init__`: cursor 0, cached length, empty queues. -/
def ExecutionState.init (body : List L) (vars : ν) : ExecutionState σ L ν :=
  { cursor := 0, body := body, c1Length := body.length, vars := vars,
    dagQueue := [], notQueue := [] }

/-- The outcome of running one mutating method of `ExecutionState`: an
optional escaped exception, together with the state as the method leaves
it (mutations made before a raise persist in Python). -/
abbrev StepResult (σ L ν : Type) := Option (PyError σ ν) × ExecutionState σ L ν

/-- The result of attempting `statement` against line `i` of `body`:
`body[i]` looked up safely, then the external `MatchLines`.  Used in the
statements of the theorems; the executable loops below keep the
out-of-range case as a separate `indexError`. -/
def matchAt (matchLines : TestStatement σ → L → ν → Option ν)
    (statement : TestStatement σ) (body : List L) (vars : ν) (i : Nat) : Option ν :=
  match body.get? i with
  | none => none
  | some line => matchLines statement line vars

/-- The `for i in range(scope.start, scope.end)` loop of
`findMatchingLine`, walking an explicit list of indices. -/
def findLoop (matchLines : TestStatement σ → L → ν → Option ν)
    (statement : TestStatement σ) (body : List L) (vars : ν)
    (excludeLines : List Nat) (failLineNo : Nat) :
    List Nat → Except (PyError σ ν) (MatchInfo ν)
  | [] => .error (.matchFailed ⟨statement, failLineNo, vars⟩)
  | i :: is =>
    if i ∈ excludeLines then
      findLoop matchLines statement body vars excludeLines failLineNo is
    else
      match body.get? i with
      | none => .error .indexError
      | some line =>
        match matchLines statement line vars with
        | some newVariables => .ok ⟨⟨i, i⟩, newVariables⟩
        | none => findLoop matchLines statement body vars excludeLines failLineNo is

/-- Source `findMatchingLine`: first line of `body` in `scope`, not on
`excludeLines`, matching `statement`; raises `MatchFailedException`
carrying `scope.start` when none is found. -/
def findMatchingLine (matchLines : TestStatement σ → L → ν → Option ν)
    (statement : TestStatement σ) (body : List L) (scope : MatchScope)
    (vars : ν) (excludeLines : List Nat := []) :
    Except (PyError σ ν) (MatchInfo ν) :=
  findLoop matchLines statement body vars excludeLines scope.start
    (List.range' scope.start (scope.stop - scope.start))

/-- Inner loop of `handleNotQueue`: one NOT statement checked against the
indices of the scope. -/
def notStatementLoop (matchLines : TestStatement σ → L → ν → Option ν)
    (statement : TestStatement σ) (body : List L) (vars : ν) :
    List Nat → Option (PyError σ ν)
  | [] => none
  | i :: is =>
    match body.get? i with
    | none => some .indexError
    | some line =>
      if (matchLines statement line vars).isSome then
        some (.matchFailed ⟨statement, i, vars⟩)
      else
        notStatementLoop matchLines statement body vars is

/-- Outer loop of `handleNotQueue` over the queued NOT statements
(including the `assert statement.variant == Not`). -/
def notQueueLoop (matchLines : TestStatement σ → L → ν → Option ν)
    (body : List L) (vars : ν) (scope : MatchScope) :
    List (TestStatement σ) → Option (PyError σ ν)
  | [] => none
  | statement :: rest =>
    if statement.variant = Variant.Not then
      match notStatementLoop matchLines statement body vars
          (List.range' scope.start (scope.stop - scope.start)) with
      | some e => some e
      | none => notQueueLoop matchLines body vars scope rest
    else some .assertionError

/-- Source `ExecutionState.handleNotQueue`: verify every queued NOT statement
against every line of `scope`; on success clear `notQueue`. -/
def ExecutionState.handleNotQueue (matchLines : TestStatement σ → L → ν → Option ν)
    (s : ExecutionState σ L ν) (scope : MatchScope) : StepResult σ L ν :=
  match notQueueLoop matchLines s.body s.vars scope s.notQueue with
  | some e => (some e, s)
  | none => (none, { s with notQueue := [] })

/-- Source `ExecutionState.moveCursor`: assert `cursor <= match.scope.end`, run
the NOT queue over the skipped scope, then advance the cursor past the
match and install its bindings. -/
def ExecutionState.moveCursor (matchLines : TestStatement σ → L → ν → Option ν)
    (s : ExecutionState σ L ν) (m : MatchInfo ν) : StepResult σ L ν :=
  if s.cursor ≤ m.scope.stop then
    match ExecutionState.handleNotQueue matchLines s ⟨s.cursor, m.scope.start⟩ with
    | (some e, s₁) => (some e, s₁)
    | (none, s₁) => (none, { s₁ with cursor := m.scope.stop + 1, vars := m.vars })
  else (some .assertionError, s)

/-- Python `min` of a list of naturals (the `[]` case would raise
`ValueError`; callers guard it, the `0` is never used). -/
def listMin : List Nat → Nat
  | [] => 0
  | i :: is => is.foldl Nat.min i

/-- Python `max` of a list of naturals (same remark as `listMin`). -/
def listMax : List Nat → Nat
  | [] => 0
  | i :: is => is.foldl Nat.max i

/-- The `for statement in self.dagQueue` loop of `handleDagQueue`:
statements in list order, each matched by `findMatchingLine` with the
already-claimed lines excluded, bindings threaded through; returns the
accumulated matched lines and the final bindings. -/
def dagLoop (matchLines : TestStatement σ → L → ν → Option ν)
    (body : List L) (scope : MatchScope) :
    List (TestStatement σ) → List Nat → ν → Except (PyError σ ν) (List Nat × ν)
  | [], matchedLines, vars => .ok (matchedLines, vars)
  | statement :: rest, matchedLines, vars =>
    if statement.variant = Variant.DAG then
      match findMatchingLine matchLines statement body scope vars matchedLines with
      | .error e => .error e
      | .ok m =>
        if m.scope.start = m.scope.stop then
          if m.scope.start ∈ matchedLines then .error .assertionError
          else dagLoop matchLines body scope rest (matchedLines ++ [m.scope.start]) m.vars
        else .error .assertionError
    else .error .assertionError

/-- Source `ExecutionState.handleDagQueue`: no-op on an empty queue; otherwise
match all queued DAG statements inside `scope`, clear the queue, and
move the cursor over `[min(matchedLines), max(matchedLines)]`. -/
def ExecutionState.handleDagQueue (matchLines : TestStatement σ → L → ν → Option ν)
    (s : ExecutionState σ L ν) (scope : MatchScope) : StepResult σ L ν :=
  match s.dagQueue with
  | [] => (none, s)
  | _ :: _ =>
    match dagLoop matchLines s.body scope s.dagQueue [] s.vars with
    | .error e => (some e, s)
    | .ok (matchedLines, vars) =>
      match matchedLines with
      | [] => (some .valueError, s)
      | _ :: _ =>
        ExecutionState.moveCursor matchLines { s with dagQueue := [] }
          ⟨⟨listMin matchedLines, listMax matchedLines⟩, vars⟩

/-- Source `ExecutionState.handleEOF`: "EOF marker always moves the cursor to
the end of the file"; the `MatchInfo` it builds carries Python `None` in
its `variables` slot, modelled by the distinguished value `noneVars`. -/
def ExecutionState.handleEOF (matchLines : TestStatement σ → L → ν → Option ν)
    (noneVars : ν) (s : ExecutionState σ L ν) : StepResult σ L ν :=
  ExecutionState.moveCursor matchLines s ⟨⟨s.c1Length, s.c1Length⟩, noneVars⟩

/-- Source `ExecutionState.handleInOrder`: search `[cursor, c1Length)` and move
the cursor past the first match. -/
def ExecutionState.handleInOrder (matchLines : TestStatement σ → L → ν → Option ν)
    (s : ExecutionState σ L ν) (statement : TestStatement σ) : StepResult σ L ν :=
  match findMatchingLine matchLines statement s.body ⟨s.cursor, s.c1Length⟩ s.vars with
  | .error e => (some e, s)
  | .ok m => ExecutionState.moveCursor matchLines s m

/-- Source `ExecutionState.handleNextLine`: search only `[cursor, cursor + 1)`. -/
def ExecutionState.handleNextLine (matchLines : TestStatement σ → L → ν → Option ν)
    (s : ExecutionState σ L ν) (statement : TestStatement σ) : StepResult σ L ν :=
  match findMatchingLine matchLines statement s.body ⟨s.cursor, s.cursor + 1⟩ s.vars with
  | .error e => (some e, s)
  | .ok m => ExecutionState.moveCursor matchLines s m

/-- Source `ExecutionState.handleEval`: evaluate the statement against the
current bindings only (`EvaluateLine` is the abstract capability). -/
def ExecutionState.handleEval (evaluateLine : TestStatement σ → ν → Bool)
    (s : ExecutionState σ L ν) (statement : TestStatement σ) : StepResult σ L ν :=
  if evaluateLine statement s.vars then (none, s)
  else (some (.matchFailed ⟨statement, s.cursor, s.vars⟩), s)

/-- The dispatch prologue of `ExecutionState.handle` (lines 145-148 of
the source): any statement that is not variant DAG, including the
synthetic `None` end-of-input marker, first flushes the DAG queue over
`[cursor, c1Length)`. -/
def ExecutionState.dispatchFlush (matchLines : TestStatement σ → L → ν → Option ν)
    (s : ExecutionState σ L ν) (statement : Option (TestStatement σ)) : StepResult σ L ν :=
  if statement.map TestStatement.variant ≠ some Variant.DAG then
    ExecutionState.handleDagQueue matchLines s ⟨s.cursor, s.c1Length⟩
  else (none, s)

/-- Source `ExecutionState.handle`: flush the DAG queue when appropriate, then
dispatch on the variant (`None` is the synthetic end-of-input marker;
DAG and Not statements are only buffered). -/
def ExecutionState.handle (matchLines : TestStatement σ → L → ν → Option ν)
    (evaluateLine : TestStatement σ → ν → Bool) (noneVars : ν)
    (s : ExecutionState σ L ν) (statement : Option (TestStatement σ)) : StepResult σ L ν :=
  match ExecutionState.dispatchFlush matchLines s statement with
  | (some e, s₁) => (some e, s₁)
  | (none, s₁) =>
    match statement with
    | none => ExecutionState.handleEOF matchLines noneVars s₁
    | some st =>
      match st.variant with
      | Variant.InOrder => ExecutionState.handleInOrder matchLines s₁ st
      | Variant.NextLine => ExecutionState.handleNextLine matchLines s₁ st
      | Variant.DAG => (none, { s₁ with dagQueue := s₁.dagQueue ++ [st] })
      | Variant.Not => (none, { s₁ with notQueue := s₁.notQueue ++ [st] })
      | Variant.Eval => ExecutionState.handleEval evaluateLine s₁ st

/-- The `for statement in testStatements` loop of `MatchTestCase`:
handle each statement in order, stopping at the first escaped exception. -/
def runStatements (matchLines : TestStatement σ → L → ν → Option ν)
    (evaluateLine : TestStatement σ → ν → Bool) (noneVars : ν)
    (s : ExecutionState σ L ν) :
    List (Option (TestStatement σ)) → StepResult σ L ν
  | [] => (none, s)
  | st :: rest =>
    match ExecutionState.handle matchLines evaluateLine noneVars s st with
    | (some e, s₁) => (some e, s₁)
    | (none, s₁) => runStatements matchLines evaluateLine noneVars s₁ rest

/-- A `C1visualizerPass`: name, body lines, and the base line number of
the pass inside the dump file (used for absolute line numbers in
failure reports). -/
structure C1visualizerPass (L : Type) where
  name : String
  body : List L
  startLineNo : Nat
deriving DecidableEq

/-- A checker `TestCase` as consumed by `MatchFiles`: name, ordered
statements, the optional architecture filter and the debuggable flag. -/
structure TestCase (σ : Type) where
  name : String
  statements : List (TestStatement σ)
  testArch : Option String
  forDebuggable : Bool
deriving DecidableEq

/-- Source `MatchTestCase`: assert the names agree, then run a fresh
`ExecutionState` over the statements followed by the synthetic `None`
end-of-input marker; `emptyVars` models the initial empty binding dict. -/
def MatchTestCase (matchLines : TestStatement σ → L → ν → Option ν)
    (evaluateLine : TestStatement σ → ν → Bool) (noneVars emptyVars : ν)
    (testCase : TestCase σ) (c1Pass : C1visualizerPass L) : StepResult σ L ν :=
  if testCase.name = c1Pass.name then
    runStatements matchLines evaluateLine noneVars
      (ExecutionState.init c1Pass.body emptyVars)
      (testCase.statements.map some ++ [none])
  else (some .assertionError, ExecutionState.init c1Pass.body emptyVars)

/-- Modelled from the spec: `C1visualizerFile.findPass`
(`file_format/c1visualizer/struct.py` is not among the sampled sources).
The spec's orchestrator section says: "locate the Pass whose name equals
the test case's target name - first occurrence only". -/
def findPass (passes : List (C1visualizerPass L)) (name : String) :
    Option (C1visualizerPass L) :=
  passes.find? (fun p => p.name == name)

/-- The per-test-case outcome recorded by the orchestrator.
`failed` carries the statement, the absolute line number
(`c1Pass.startLineNo + e.lineNo`) and the bindings snapshot that
`MatchFiles` hands to `Logger.testFailed`; `testCaseNotFound` is the
spec's fatal-for-this-test-case `PassNotFound` outcome (`Logger.fail`
is not among the sampled sources and is modelled from the spec:
"fatal for that test case only"). -/
inductive TestResult (σ ν : Type) where
  | passed (testName : String)
  | failed (testName : String) (statement : TestStatement σ) (lineNo : Nat) (vars : ν)
  | testCaseNotFound (testName : String)
deriving DecidableEq

/-- Source `MatchFiles`: filter test cases by architecture and debuggable mode,
locate the pass, run `MatchTestCase`, catch `MatchFailedException` and
report it with the absolute line number, then continue with the
remaining test cases.  Exceptions other than `MatchFailedException`
(e.g. `IndexError`) are not caught by the source and abort the whole
orchestrator, modelled by the `Except` error. -/
def MatchFiles (matchLines : TestStatement σ → L → ν → Option ν)
    (evaluateLine : TestStatement σ → ν → Bool) (noneVars emptyVars : ν)
    (testCases : List (TestCase σ)) (passes : List (C1visualizerPass L))
    (targetArch : String) (debuggableMode : Bool) :
    Except (PyError σ ν) (List (TestResult σ ν)) :=
  match testCases with
  | [] => .ok []
  | tc :: rest =>
    if tc.testArch ≠ none ∧ tc.testArch ≠ some targetArch then
      MatchFiles matchLines evaluateLine noneVars emptyVars rest passes targetArch debuggableMode
    else if tc.forDebuggable ≠ debuggableMode then
      MatchFiles matchLines evaluateLine noneVars emptyVars rest passes targetArch debuggableMode
    else
      match findPass passes tc.name with
      | none =>
        Except.map (fun rs => TestResult.testCaseNotFound tc.name :: rs)
          (MatchFiles matchLines evaluateLine noneVars emptyVars rest passes targetArch debuggableMode)
      | some c1Pass =>
        match MatchTestCase matchLines evaluateLine noneVars emptyVars tc c1Pass with
        | (none, _) =>
          Except.map (fun rs => TestResult.passed tc.name :: rs)
            (MatchFiles matchLines evaluateLine noneVars emptyVars rest passes targetArch debuggableMode)
        | (some (.matchFailed e), _) =>
          Except.map (fun rs =>
              TestResult.failed tc.name e.statement (c1Pass.startLineNo + e.lineNo) e.vars :: rs)
            (MatchFiles matchLines evaluateLine noneVars emptyVars rest passes targetArch debuggableMode)
        | (some e, _) => .error e

/-!
### Characterisation of the `findMatchingLine` loop

`range(a, b)` is `List.range' a (b - a)`; the lemmas below describe
`findLoop` on such contiguous ranges.
-/

/-- Index `i` is the first index of `[a, b)` outside `excl` whose line matches
`statement` under `vars`, producing bindings `nv`. -/
def IsFirstMatch (matchLines : TestStatement σ → L → ν → Option ν)
    (statement : TestStatement σ) (body : List L) (vars : ν)
    (a b : Nat) (excl : List Nat) (i : Nat) (nv : ν) : Prop :=
  a ≤ i ∧ i < b ∧ i ∉ excl ∧ matchAt matchLines statement body vars i = some nv ∧
  ∀ j, a ≤ j → j < i → j ∉ excl → matchAt matchLines statement body vars j = none

theorem findLoop_ok {matchLines : TestStatement σ → L → ν → Option ν}
    {statement : TestStatement σ} {body : List L} {vars : ν}
    {excl : List Nat} {a : Nat} (n : Nat) :
    ∀ (s' : Nat) (m : MatchInfo ν),
      findLoop matchLines statement body vars excl a (List.range' s' n) = .ok m →
      ∃ i nv, m = ⟨⟨i, i⟩, nv⟩ ∧
        IsFirstMatch matchLines statement body vars s' (s' + n) excl i nv := by
  induction n with
  | zero => intro s' m h; simp [findLoop] at h
  | succ n ih =>
    intro s' m h
    rw [List.range'_succ] at h
    by_cases hex : s' ∈ excl
    · rw [findLoop, if_pos hex] at h
      obtain ⟨i, nv, rfl, h1, h2, h3, h4, h5⟩ := ih (s' + 1) m h
      refine ⟨i, nv, rfl, by omega, by omega, h3, h4, fun j hj1 hj2 hj3 => ?_⟩
      rcases Nat.eq_or_lt_of_le hj1 with rfl | hlt
      · exact absurd hex hj3
      · exact h5 j hlt hj2 hj3
    · rw [findLoop, if_neg hex] at h
      cases hget : body.get? s' with
      | none => simp only [hget] at h; simp at h
      | some line =>
        simp only [hget] at h
        cases hml : matchLines statement line vars with
        | some nv =>
          simp only [hml] at h
          injection h with h
          refine ⟨s', nv, h.symm, Nat.le_refl _, by omega, hex, ?_, fun j hj1 hj2 _ => by omega⟩
          rw [matchAt]; simp only [hget]; exact hml
        | none =>
          simp only [hml] at h
          obtain ⟨i, nv, rfl, h1, h2, h3, h4, h5⟩ := ih (s' + 1) m h
          refine ⟨i, nv, rfl, by omega, by omega, h3, h4, fun j hj1 hj2 hj3 => ?_⟩
          rcases Nat.eq_or_lt_of_le hj1 with rfl | hlt
          · rw [matchAt]; simp only [hget]; exact hml
          · exact h5 j hlt hj2 hj3

theorem findLoop_complete {matchLines : TestStatement σ → L → ν → Option ν}
    {statement : TestStatement σ} {body : List L} {vars : ν}
    {excl : List Nat} {a : Nat} (n : Nat) :
    ∀ (s' i : Nat) (nv : ν),
      IsFirstMatch matchLines statement body vars s' (s' + n) excl i nv →
      findLoop matchLines statement body vars excl a (List.range' s' n)
        = .ok ⟨⟨i, i⟩, nv⟩ := by
  induction n with
  | zero => intro s' i nv ⟨h1, h2, _⟩; omega
  | succ n ih =>
    intro s' i nv ⟨h1, h2, h3, h4, h5⟩
    rw [List.range'_succ]
    by_cases hex : s' ∈ excl
    · rw [findLoop, if_pos hex]
      have hne : s' ≠ i := fun he => h3 (he ▸ hex)
      exact ih (s' + 1) i nv ⟨by omega, by omega, h3, h4, fun j hj1 hj2 hj3 =>
        h5 j (by omega) hj2 hj3⟩
    · rw [findLoop, if_neg hex]
      have hilen : i < body.length := by
        by_contra hc
        rw [matchAt, List.get?_eq_none.mpr (by omega)] at h4
        exact Option.noConfusion h4
      rcases Nat.eq_or_lt_of_le h1 with rfl | hlt
      · rw [matchAt] at h4
        cases hget : body.get? s' with
        | none => rw [hget] at h4; exact Option.noConfusion h4
        | some line =>
          simp only [hget] at h4
          simp only [hget, h4]
      · cases hget : body.get? s' with
        | none =>
          have := List.get?_eq_none.mp hget
          omega
        | some line =>
          have hnone := h5 s' (Nat.le_refl _) hlt hex
          rw [matchAt] at hnone
          simp only [hget] at hnone
          simp only [hget, hnone]
          exact ih (s' + 1) i nv ⟨by omega, by omega, h3, h4, fun j hj1 hj2 hj3 =>
            h5 j (by omega) hj2 hj3⟩

theorem findLoop_error_shape {matchLines : TestStatement σ → L → ν → Option ν}
    {statement : TestStatement σ} {body : List L} {vars : ν}
    {excl : List Nat} {a : Nat} :
    ∀ (is : List Nat) (e : PyError σ ν),
      findLoop matchLines statement body vars excl a is = .error e →
      e = .indexError ∨ e = .matchFailed ⟨statement, a, vars⟩ := by
  intro is
  induction is with
  | nil => intro e h; right; rw [findLoop] at h; cases h; rfl
  | cons i is ih =>
    intro e h
    rw [findLoop] at h
    by_cases hex : i ∈ excl
    · rw [if_pos hex] at h; exact ih e h
    · rw [if_neg hex] at h
      cases hget : body.get? i with
      | none => simp only [hget] at h; left; injection h with h; exact h.symm
      | some line =>
        simp only [hget] at h
        cases hml : matchLines statement line vars with
        | some nv => simp only [hml] at h; exact Except.noConfusion h
        | none => simp only [hml] at h; exact ih e h

theorem findLoop_matchFailed {matchLines : TestStatement σ → L → ν → Option ν}
    {statement : TestStatement σ} {body : List L} {vars : ν}
    {excl : List Nat} {a : Nat} (n : Nat) :
    ∀ (s' : Nat) (f : MatchFailedException σ ν),
      findLoop matchLines statement body vars excl a (List.range' s' n)
        = .error (.matchFailed f) →
      ∀ j, s' ≤ j → j < s' + n → j ∉ excl →
        matchAt matchLines statement body vars j = none := by
  induction n with
  | zero => intro s' f _ j hj1 hj2; omega
  | succ n ih =>
    intro s' f h j hj1 hj2 hj3
    rw [List.range'_succ] at h
    by_cases hex : s' ∈ excl
    · rw [findLoop, if_pos hex] at h
      rcases Nat.eq_or_lt_of_le hj1 with rfl | hlt
      · exact absurd hex hj3
      · exact ih (s' + 1) f h j hlt (by omega) hj3
    · rw [findLoop, if_neg hex] at h
      cases hget : body.get? s' with
      | none => simp only [hget] at h; simp at h
      | some line =>
        simp only [hget] at h
        cases hml : matchLines statement line vars with
        | some nv => simp only [hml] at h; exact Except.noConfusion h
        | none =>
          simp only [hml] at h
          rcases Nat.eq_or_lt_of_le hj1 with rfl | hlt
          · rw [matchAt]; simp only [hget]; exact hml
          · exact ih (s' + 1) f h j hlt (by omega) hj3

theorem findLoop_fail_of {matchLines : TestStatement σ → L → ν → Option ν}
    {statement : TestStatement σ} {body : List L} {vars : ν}
    {excl : List Nat} {a : Nat} (n : Nat) :
    ∀ (s' : Nat),
      (∀ j, s' ≤ j → j < s' + n → j < body.length) →
      (∀ j, s' ≤ j → j < s' + n → j ∉ excl →
        matchAt matchLines statement body vars j = none) →
      findLoop matchLines statement body vars excl a (List.range' s' n)
        = .error (.matchFailed ⟨statement, a, vars⟩) := by
  induction n with
  | zero => intro s' _ _; rfl
  | succ n ih =>
    intro s' hlen hall
    rw [List.range'_succ]
    by_cases hex : s' ∈ excl
    · rw [findLoop, if_pos hex]
      exact ih (s' + 1) (fun j h1 h2 => hlen j (by omega) (by omega))
        (fun j h1 h2 h3 => hall j (by omega) (by omega) h3)
    · rw [findLoop, if_neg hex]
      cases hget : body.get? s' with
      | none =>
        have := List.get?_eq_none.mp hget
        have := hlen s' (Nat.le_refl _) (by omega)
        omega
      | some line =>
        have hnone := hall s' (Nat.le_refl _) (by omega) hex
        rw [matchAt] at hnone
        simp only [hget] at hnone
        simp only [hget, hnone]
        exact ih (s' + 1) (fun j h1 h2 => hlen j (by omega) (by omega))
          (fun j h1 h2 h3 => hall j (by omega) (by omega) h3)

theorem findLoop_no_indexError {matchLines : TestStatement σ → L → ν → Option ν}
    {statement : TestStatement σ} {body : List L} {vars : ν}
    {excl : List Nat} {a : Nat} (n : Nat) :
    ∀ (s' : Nat),
      (∀ j, s' ≤ j → j < s' + n → j < body.length) →
      findLoop matchLines statement body vars excl a (List.range' s' n)
        ≠ .error .indexError := by
  induction n with
  | zero => intro s' _ h; simp [findLoop] at h
  | succ n ih =>
    intro s' hlen h
    rw [List.range'_succ] at h
    by_cases hex : s' ∈ excl
    · rw [findLoop, if_pos hex] at h
      exact ih (s' + 1) (fun j h1 h2 => hlen j (by omega) (by omega)) h
    · rw [findLoop, if_neg hex] at h
      cases hget : body.get? s' with
      | none =>
        have := List.get?_eq_none.mp hget
        have := hlen s' (Nat.le_refl _) (by omega)
        omega
      | some line =>
        simp only [hget] at h
        cases hml : matchLines statement line vars with
        | some nv => simp only [hml] at h; exact Except.noConfusion h
        | none =>
          simp only [hml] at h
          exact ih (s' + 1) (fun j h1 h2 => hlen j (by omega) (by omega)) h

/-!
### Characterisation of the NOT-queue loops
-/

theorem notStatementLoop_none {matchLines : TestStatement σ → L → ν → Option ν}
    {statement : TestStatement σ} {body : List L} {vars : ν} (n : Nat) :
    ∀ (s' : Nat),
      notStatementLoop matchLines statement body vars (List.range' s' n) = none →
      ∀ j, s' ≤ j → j < s' + n → matchAt matchLines statement body vars j = none := by
  induction n with
  | zero => intro s' _ j hj1 hj2; omega
  | succ n ih =>
    intro s' h j hj1 hj2
    rw [List.range'_succ, notStatementLoop] at h
    cases hget : body.get? s' with
    | none => simp only [hget] at h; exact Option.noConfusion h
    | some line =>
      simp only [hget] at h
      by_cases hml : (matchLines statement line vars).isSome
      · rw [if_pos hml] at h; exact Option.noConfusion h
      · rw [if_neg hml] at h
        rcases Nat.eq_or_lt_of_le hj1 with rfl | hlt
        · rw [matchAt]
          simp only [hget]
          exact Option.not_isSome_iff_eq_none.mp hml
        · exact ih (s' + 1) h j hlt (by omega)

theorem notStatementLoop_none_of {matchLines : TestStatement σ → L → ν → Option ν}
    {statement : TestStatement σ} {body : List L} {vars : ν} (n : Nat) :
    ∀ (s' : Nat),
      (∀ j, s' ≤ j → j < s' + n → j < body.length) →
      (∀ j, s' ≤ j → j < s' + n → matchAt matchLines statement body vars j = none) →
      notStatementLoop matchLines statement body vars (List.range' s' n) = none := by
  induction n with
  | zero => intro s' _ _; rfl
  | succ n ih =>
    intro s' hlen hall
    rw [List.range'_succ, notStatementLoop]
    cases hget : body.get? s' with
    | none =>
      have := List.get?_eq_none.mp hget
      have := hlen s' (Nat.le_refl _) (by omega)
      omega
    | some line =>
      have hnone := hall s' (Nat.le_refl _) (by omega)
      rw [matchAt] at hnone
      simp only [hget] at hnone
      simp only [hget, hnone, Option.isSome_none, Bool.false_eq_true, if_false]
      exact ih (s' + 1) (fun j h1 h2 => hlen j (by omega) (by omega))
        (fun j h1 h2 => hall j (by omega) (by omega))

theorem notStatementLoop_some {matchLines : TestStatement σ → L → ν → Option ν}
    {statement : TestStatement σ} {body : List L} {vars : ν} (n : Nat) :
    ∀ (s' : Nat) (e : PyError σ ν),
      (∀ j, s' ≤ j → j < s' + n → j < body.length) →
      notStatementLoop matchLines statement body vars (List.range' s' n) = some e →
      ∃ j nv, s' ≤ j ∧ j < s' + n ∧
        matchAt matchLines statement body vars j = some nv ∧
        e = .matchFailed ⟨statement, j, vars⟩ := by
  induction n with
  | zero => intro s' e _ h; simp [notStatementLoop] at h
  | succ n ih =>
    intro s' e hlen h
    rw [List.range'_succ, notStatementLoop] at h
    cases hget : body.get? s' with
    | none =>
      have := List.get?_eq_none.mp hget
      have := hlen s' (Nat.le_refl _) (by omega)
      omega
    | some line =>
      simp only [hget] at h
      by_cases hml : (matchLines statement line vars).isSome
      · rw [if_pos hml] at h
        obtain ⟨nv, hnv⟩ := Option.isSome_iff_exists.mp hml
        refine ⟨s', nv, Nat.le_refl _, by omega, ?_, by injection h with h; exact h.symm⟩
        rw [matchAt]; simp only [hget]; exact hnv
      · rw [if_neg hml] at h
        obtain ⟨j, nv, h1, h2, h3, h4⟩ :=
          ih (s' + 1) e (fun j h1 h2 => hlen j (by omega) (by omega)) h
        exact ⟨j, nv, by omega, by omega, h3, h4⟩

theorem notQueueLoop_none_iff {matchLines : TestStatement σ → L → ν → Option ν}
    {body : List L} {vars : ν} {scope : MatchScope}
    (hlen : scope.stop ≤ body.length) :
    ∀ (queue : List (TestStatement σ)),
      (∀ st ∈ queue, st.variant = Variant.Not) →
      (notQueueLoop matchLines body vars scope queue = none ↔
        ∀ st ∈ queue, ∀ j, scope.start ≤ j → j < scope.stop →
          matchAt matchLines st body vars j = none) := by
  intro queue
  induction queue with
  | nil => intro _; simp [notQueueLoop]
  | cons st rest ih =>
    intro hvar
    rw [notQueueLoop, if_pos (hvar st (List.mem_cons_self st rest))]
    cases hq : notStatementLoop matchLines st body vars
        (List.range' scope.start (scope.stop - scope.start)) with
    | some e =>
      simp only
      constructor
      · intro h; exact Option.noConfusion h
      · intro hall
        obtain ⟨j, nv, h1, h2, h3, _⟩ := notStatementLoop_some _ _ e
          (fun j hj1 hj2 => by omega) hq
        have := hall st (List.mem_cons_self st rest) j h1 (by omega)
        rw [this] at h3
        exact Option.noConfusion h3
    | none =>
      simp only
      rw [ih (fun t ht => hvar t (List.mem_cons_of_mem st ht))]
      constructor
      · intro hrest t ht j hj1 hj2
        rcases List.mem_cons.mp ht with rfl | ht'
        · exact notStatementLoop_none _ _ hq j hj1 (by omega)
        · exact hrest t ht' j hj1 hj2
      · intro hall t ht j hj1 hj2
        exact hall t (List.mem_cons_of_mem st ht) j hj1 hj2

theorem notQueueLoop_some {matchLines : TestStatement σ → L → ν → Option ν}
    {body : List L} {vars : ν} {scope : MatchScope}
    (hlen : scope.stop ≤ body.length) :
    ∀ (queue : List (TestStatement σ)),
      (∀ st ∈ queue, st.variant = Variant.Not) →
      ∀ (e : PyError σ ν), notQueueLoop matchLines body vars scope queue = some e →
      ∃ st j nv, st ∈ queue ∧ scope.start ≤ j ∧ j < scope.stop ∧
        matchAt matchLines st body vars j = some nv ∧
        e = .matchFailed ⟨st, j, vars⟩ := by
  intro queue
  induction queue with
  | nil => intro _ e h; simp [notQueueLoop] at h
  | cons st rest ih =>
    intro hvar e h
    rw [notQueueLoop, if_pos (hvar st (List.mem_cons_self st rest))] at h
    cases hq : notStatementLoop matchLines st body vars
        (List.range' scope.start (scope.stop - scope.start)) with
    | some e' =>
      simp only [hq] at h
      obtain ⟨j, nv, h1, h2, h3, h4⟩ := notStatementLoop_some _ _ e'
        (fun j hj1 hj2 => by omega) hq
      injection h with h
      exact ⟨st, j, nv, List.mem_cons_self st rest, h1, by omega, h3, h ▸ h4⟩
    | none =>
      simp only [hq] at h
      obtain ⟨t, j, nv, ht, h1, h2, h3, h4⟩ :=
        ih (fun t ht => hvar t (List.mem_cons_of_mem st ht)) e h
      exact ⟨t, j, nv, List.mem_cons_of_mem st ht, h1, h2, h3, h4⟩

/-!
### Behaviour of the state-mutating handlers
-/

theorem handleNotQueue_of_none {matchLines : TestStatement σ → L → ν → Option ν}
    {s : ExecutionState σ L ν} {scope : MatchScope}
    (h : notQueueLoop matchLines s.body s.vars scope s.notQueue = none) :
    ExecutionState.handleNotQueue matchLines s scope = (none, { s with notQueue := [] }) := by
  rw [ExecutionState.handleNotQueue]; simp only [h]

theorem handleNotQueue_of_some {matchLines : TestStatement σ → L → ν → Option ν}
    {s : ExecutionState σ L ν} {scope : MatchScope} {e : PyError σ ν}
    (h : notQueueLoop matchLines s.body s.vars scope s.notQueue = some e) :
    ExecutionState.handleNotQueue matchLines s scope = (some e, s) := by
  rw [ExecutionState.handleNotQueue]; simp only [h]

theorem moveCursor_of_ok {matchLines : TestStatement σ → L → ν → Option ν}
    {s : ExecutionState σ L ν} {m : MatchInfo ν}
    (hc : s.cursor ≤ m.scope.stop)
    (hq : notQueueLoop matchLines s.body s.vars ⟨s.cursor, m.scope.start⟩ s.notQueue = none) :
    ExecutionState.moveCursor matchLines s m
      = (none, { s with notQueue := [], cursor := m.scope.stop + 1, vars := m.vars }) := by
  rw [ExecutionState.moveCursor, if_pos hc, handleNotQueue_of_none hq]

theorem moveCursor_of_notfail {matchLines : TestStatement σ → L → ν → Option ν}
    {s : ExecutionState σ L ν} {m : MatchInfo ν} {e : PyError σ ν}
    (hc : s.cursor ≤ m.scope.stop)
    (hq : notQueueLoop matchLines s.body s.vars ⟨s.cursor, m.scope.start⟩ s.notQueue = some e) :
    ExecutionState.moveCursor matchLines s m = (some e, s) := by
  rw [ExecutionState.moveCursor, if_pos hc, handleNotQueue_of_some hq]

theorem moveCursor_of_assert {matchLines : TestStatement σ → L → ν → Option ν}
    {s : ExecutionState σ L ν} {m : MatchInfo ν}
    (hc : ¬ s.cursor ≤ m.scope.stop) :
    ExecutionState.moveCursor matchLines s m = (some .assertionError, s) := by
  rw [ExecutionState.moveCursor, if_neg hc]

theorem moveCursor_some_inv {matchLines : TestStatement σ → L → ν → Option ν}
    {s : ExecutionState σ L ν} {m : MatchInfo ν} {e : PyError σ ν}
    {s' : ExecutionState σ L ν}
    (h : ExecutionState.moveCursor matchLines s m = (some e, s')) : s' = s := by
  by_cases hc : s.cursor ≤ m.scope.stop
  · cases hq : notQueueLoop matchLines s.body s.vars ⟨s.cursor, m.scope.start⟩ s.notQueue with
    | some e' =>
      rw [moveCursor_of_notfail hc hq] at h
      injection h with h1 h2; exact h2.symm
    | none =>
      rw [moveCursor_of_ok hc hq] at h
      injection h with h1 h2; exact Option.noConfusion h1
  · rw [moveCursor_of_assert hc] at h
    injection h with h1 h2; exact h2.symm

theorem moveCursor_none_inv {matchLines : TestStatement σ → L → ν → Option ν}
    {s : ExecutionState σ L ν} {m : MatchInfo ν} {s' : ExecutionState σ L ν}
    (h : ExecutionState.moveCursor matchLines s m = (none, s')) :
    s.cursor ≤ m.scope.stop ∧
    notQueueLoop matchLines s.body s.vars ⟨s.cursor, m.scope.start⟩ s.notQueue = none ∧
    s' = { s with notQueue := [], cursor := m.scope.stop + 1, vars := m.vars } := by
  by_cases hc : s.cursor ≤ m.scope.stop
  · cases hq : notQueueLoop matchLines s.body s.vars ⟨s.cursor, m.scope.start⟩ s.notQueue with
    | some e' =>
      rw [moveCursor_of_notfail hc hq] at h
      injection h with h1 h2; exact Option.noConfusion h1
    | none =>
      rw [moveCursor_of_ok hc hq] at h
      injection h with h1 h2
      exact ⟨hc, rfl, h2.symm⟩
  · rw [moveCursor_of_assert hc] at h
    injection h with h1 h2; exact Option.noConfusion h1

theorem foldl_max_facts : ∀ (is : List Nat) (acc : Nat),
    acc ≤ is.foldl Nat.max acc ∧ (∀ j ∈ is, j ≤ is.foldl Nat.max acc) ∧
    (is.foldl Nat.max acc = acc ∨ is.foldl Nat.max acc ∈ is)
  | [], acc => ⟨Nat.le_refl _, fun j hj => absurd hj (List.not_mem_nil j), Or.inl rfl⟩
  | a :: is, acc => by
    obtain ⟨h1, h2, h3⟩ := foldl_max_facts is (Nat.max acc a)
    rw [List.foldl_cons]
    refine ⟨Nat.le_trans (Nat.le_max_left acc a) h1, ?_, ?_⟩
    · intro j hj
      rcases List.mem_cons.mp hj with rfl | hj'
      · exact Nat.le_trans (Nat.le_max_right acc j) h1
      · exact h2 j hj'
    · rcases h3 with he | hm
      · rw [he]
        by_cases hc : acc ≤ a
        · refine Or.inr ?_
          have hm2 : Nat.max acc a = a := if_pos hc
          rw [hm2]
          exact List.mem_cons_self a is
        · have hm2 : Nat.max acc a = acc := if_neg hc
          exact Or.inl hm2
      · exact Or.inr (List.mem_cons_of_mem a hm)

theorem foldl_min_facts : ∀ (is : List Nat) (acc : Nat),
    is.foldl Nat.min acc ≤ acc ∧ (∀ j ∈ is, is.foldl Nat.min acc ≤ j) ∧
    (is.foldl Nat.min acc = acc ∨ is.foldl Nat.min acc ∈ is)
  | [], acc => ⟨Nat.le_refl _, fun j hj => absurd hj (List.not_mem_nil j), Or.inl rfl⟩
  | a :: is, acc => by
    obtain ⟨h1, h2, h3⟩ := foldl_min_facts is (Nat.min acc a)
    rw [List.foldl_cons]
    refine ⟨Nat.le_trans h1 (Nat.min_le_left acc a), ?_, ?_⟩
    · intro j hj
      rcases List.mem_cons.mp hj with rfl | hj'
      · exact Nat.le_trans h1 (Nat.min_le_right acc j)
      · exact h2 j hj'
    · rcases h3 with he | hm
      · rw [he]
        by_cases hc : acc ≤ a
        · have hm2 : Nat.min acc a = acc := if_pos hc
          exact Or.inl hm2
        · refine Or.inr ?_
          have hm2 : Nat.min acc a = a := if_neg hc
          rw [hm2]
          exact List.mem_cons_self a is
      · exact Or.inr (List.mem_cons_of_mem a hm)

theorem listMax_mem (i : Nat) (is : List Nat) : listMax (i :: is) ∈ i :: is := by
  rw [listMax]
  rcases (foldl_max_facts is i).2.2 with he | hm
  · rw [he]; exact List.mem_cons_self i is
  · exact List.mem_cons_of_mem i hm

theorem le_listMax {j : Nat} {i : Nat} {is : List Nat} (h : j ∈ i :: is) :
    j ≤ listMax (i :: is) := by
  rw [listMax]
  rcases List.mem_cons.mp h with rfl | hj'
  · exact (foldl_max_facts is j).1
  · exact (foldl_max_facts is i).2.1 j hj'

theorem listMin_mem (i : Nat) (is : List Nat) : listMin (i :: is) ∈ i :: is := by
  rw [listMin]
  rcases (foldl_min_facts is i).2.2 with he | hm
  · rw [he]; exact List.mem_cons_self i is
  · exact List.mem_cons_of_mem i hm

theorem listMin_le {j : Nat} {i : Nat} {is : List Nat} (h : j ∈ i :: is) :
    listMin (i :: is) ≤ j := by
  rw [listMin]
  rcases List.mem_cons.mp h with rfl | hj'
  · exact (foldl_min_facts is j).1
  · exact (foldl_min_facts is i).2.1 j hj'

/-!
### Per-handler frame and monotonicity lemmas
-/

theorem moveCursor_cursor_mono (matchLines : TestStatement σ → L → ν → Option ν)
    (s : ExecutionState σ L ν) (m : MatchInfo ν) :
    s.cursor ≤ (ExecutionState.moveCursor matchLines s m).2.cursor := by
  by_cases hc : s.cursor ≤ m.scope.stop
  · cases hq : notQueueLoop matchLines s.body s.vars ⟨s.cursor, m.scope.start⟩ s.notQueue with
    | some e => rw [moveCursor_of_notfail hc hq]
    | none =>
      rw [moveCursor_of_ok hc hq]
      show s.cursor ≤ m.scope.stop + 1
      omega
  · rw [moveCursor_of_assert hc]

theorem handleDagQueue_cursor_mono {matchLines : TestStatement σ → L → ν → Option ν}
    {s : ExecutionState σ L ν} {scope : MatchScope} :
    s.cursor ≤ (ExecutionState.handleDagQueue matchLines s scope).2.cursor := by
  rw [ExecutionState.handleDagQueue]
  cases hdq : s.dagQueue with
  | nil => exact Nat.le_refl _
  | cons q qs =>
    cases hdl : dagLoop matchLines s.body scope (q :: qs) [] s.vars with
    | error e => exact Nat.le_refl _
    | ok p =>
      obtain ⟨ls, v⟩ := p
      cases ls with
      | nil => exact Nat.le_refl _
      | cons i is =>
        exact moveCursor_cursor_mono matchLines { s with dagQueue := [] }
          ⟨⟨listMin (i :: is), listMax (i :: is)⟩, v⟩

theorem handleInOrder_cursor_mono {matchLines : TestStatement σ → L → ν → Option ν}
    {s : ExecutionState σ L ν} {st : TestStatement σ} :
    s.cursor ≤ (ExecutionState.handleInOrder matchLines s st).2.cursor := by
  rw [ExecutionState.handleInOrder]
  cases hf : findMatchingLine matchLines st s.body ⟨s.cursor, s.c1Length⟩ s.vars with
  | error e => exact Nat.le_refl _
  | ok m => exact moveCursor_cursor_mono matchLines s m

theorem handleNextLine_cursor_mono {matchLines : TestStatement σ → L → ν → Option ν}
    {s : ExecutionState σ L ν} {st : TestStatement σ} :
    s.cursor ≤ (ExecutionState.handleNextLine matchLines s st).2.cursor := by
  rw [ExecutionState.handleNextLine]
  cases hf : findMatchingLine matchLines st s.body ⟨s.cursor, s.cursor + 1⟩ s.vars with
  | error e => exact Nat.le_refl _
  | ok m => exact moveCursor_cursor_mono matchLines s m

theorem handleEval_snd (evaluateLine : TestStatement σ → ν → Bool)
    (s : ExecutionState σ L ν) (st : TestStatement σ) :
    (ExecutionState.handleEval evaluateLine s st).2 = s := by
  rw [ExecutionState.handleEval]
  by_cases he : evaluateLine st s.vars
  · rw [if_pos he]
  · rw [if_neg he]

theorem dispatchFlush_cursor_mono (matchLines : TestStatement σ → L → ν → Option ν)
    (s : ExecutionState σ L ν) (ost : Option (TestStatement σ)) :
    s.cursor ≤ (ExecutionState.dispatchFlush matchLines s ost).2.cursor := by
  rw [ExecutionState.dispatchFlush]
  by_cases hv : ost.map TestStatement.variant ≠ some Variant.DAG
  · rw [if_pos hv]; exact handleDagQueue_cursor_mono
  · rw [if_neg hv]

/-!
### Branch equations for `ExecutionState.handle`
-/

theorem handle_flush_some {matchLines : TestStatement σ → L → ν → Option ν}
    {evaluateLine : TestStatement σ → ν → Bool} {noneVars : ν}
    {s s₁ : ExecutionState σ L ν} {ost : Option (TestStatement σ)} {e : PyError σ ν}
    (hf : ExecutionState.dispatchFlush matchLines s ost = (some e, s₁)) :
    ExecutionState.handle matchLines evaluateLine noneVars s ost = (some e, s₁) := by
  rw [ExecutionState.handle, hf]

theorem handle_eof {matchLines : TestStatement σ → L → ν → Option ν}
    {evaluateLine : TestStatement σ → ν → Bool} {noneVars : ν}
    {s s₁ : ExecutionState σ L ν}
    (hf : ExecutionState.dispatchFlush matchLines s none = (none, s₁)) :
    ExecutionState.handle matchLines evaluateLine noneVars s none
      = ExecutionState.handleEOF matchLines noneVars s₁ := by
  rw [ExecutionState.handle, hf]

theorem handle_inOrder {matchLines : TestStatement σ → L → ν → Option ν}
    {evaluateLine : TestStatement σ → ν → Bool} {noneVars : ν}
    {s s₁ : ExecutionState σ L ν} {st : TestStatement σ}
    (hf : ExecutionState.dispatchFlush matchLines s (some st) = (none, s₁))
    (hv : st.variant = Variant.InOrder) :
    ExecutionState.handle matchLines evaluateLine noneVars s (some st)
      = ExecutionState.handleInOrder matchLines s₁ st := by
  rw [ExecutionState.handle, hf]; simp only [hv]

theorem handle_nextLine {matchLines : TestStatement σ → L → ν → Option ν}
    {evaluateLine : TestStatement σ → ν → Bool} {noneVars : ν}
    {s s₁ : ExecutionState σ L ν} {st : TestStatement σ}
    (hf : ExecutionState.dispatchFlush matchLines s (some st) = (none, s₁))
    (hv : st.variant = Variant.NextLine) :
    ExecutionState.handle matchLines evaluateLine noneVars s (some st)
      = ExecutionState.handleNextLine matchLines s₁ st := by
  rw [ExecutionState.handle, hf]; simp only [hv]

theorem handle_eval {matchLines : TestStatement σ → L → ν → Option ν}
    {evaluateLine : TestStatement σ → ν → Bool} {noneVars : ν}
    {s s₁ : ExecutionState σ L ν} {st : TestStatement σ}
    (hf : ExecutionState.dispatchFlush matchLines s (some st) = (none, s₁))
    (hv : st.variant = Variant.Eval) :
    ExecutionState.handle matchLines evaluateLine noneVars s (some st)
      = ExecutionState.handleEval evaluateLine s₁ st := by
  rw [ExecutionState.handle, hf]; simp only [hv]

theorem dispatchFlush_dag {matchLines : TestStatement σ → L → ν → Option ν}
    {s : ExecutionState σ L ν} {st : TestStatement σ}
    (hv : st.variant = Variant.DAG) :
    ExecutionState.dispatchFlush matchLines s (some st) = (none, s) := by
  rw [ExecutionState.dispatchFlush]
  simp [hv]

theorem handle_dagBuffer {matchLines : TestStatement σ → L → ν → Option ν}
    {evaluateLine : TestStatement σ → ν → Bool} {noneVars : ν}
    {s : ExecutionState σ L ν} {st : TestStatement σ}
    (hv : st.variant = Variant.DAG) :
    ExecutionState.handle matchLines evaluateLine noneVars s (some st)
      = (none, { s with dagQueue := s.dagQueue ++ [st] }) := by
  rw [ExecutionState.handle, dispatchFlush_dag hv]; simp only [hv]

theorem handle_notBuffer {matchLines : TestStatement σ → L → ν → Option ν}
    {evaluateLine : TestStatement σ → ν → Bool} {noneVars : ν}
    {s s₁ : ExecutionState σ L ν} {st : TestStatement σ}
    (hf : ExecutionState.dispatchFlush matchLines s (some st) = (none, s₁))
    (hv : st.variant = Variant.Not) :
    ExecutionState.handle matchLines evaluateLine noneVars s (some st)
      = (none, { s₁ with notQueue := s₁.notQueue ++ [st] }) := by
  rw [ExecutionState.handle, hf]; simp only [hv]

theorem handle_cursor_mono (matchLines : TestStatement σ → L → ν → Option ν)
    (evaluateLine : TestStatement σ → ν → Bool) (noneVars : ν)
    (s : ExecutionState σ L ν) (ost : Option (TestStatement σ)) :
    s.cursor ≤ (ExecutionState.handle matchLines evaluateLine noneVars s ost).2.cursor := by
  cases hf : ExecutionState.dispatchFlush matchLines s ost with
  | mk e? s₁ =>
    have h1 : s.cursor ≤ s₁.cursor := by
      have := dispatchFlush_cursor_mono matchLines s ost
      rw [hf] at this
      exact this
    cases e? with
    | some e =>
      rw [handle_flush_some hf]
      exact h1
    | none =>
      cases ost with
      | none =>
        rw [handle_eof hf, ExecutionState.handleEOF]
        exact Nat.le_trans h1 (moveCursor_cursor_mono matchLines s₁ ⟨⟨s₁.c1Length, s₁.c1Length⟩, noneVars⟩)
      | some st =>
        cases hv : st.variant
        · rw [handle_inOrder hf hv]
          exact Nat.le_trans h1 handleInOrder_cursor_mono
        · rw [handle_nextLine hf hv]
          exact Nat.le_trans h1 handleNextLine_cursor_mono
        · rw [handle_dagBuffer hv]
        · rw [handle_notBuffer hf hv]
          exact h1
        · rw [handle_eval hf hv]
          exact Nat.le_trans h1 (Nat.le_of_eq (congrArg ExecutionState.cursor (handleEval_snd evaluateLine s₁ st)).symm)

theorem handleNotQueue_snd_cases {matchLines : TestStatement σ → L → ν → Option ν}
    {s : ExecutionState σ L ν} {scope : MatchScope} :
    (ExecutionState.handleNotQueue matchLines s scope).2 = s ∨
    (ExecutionState.handleNotQueue matchLines s scope).2 = { s with notQueue := [] } := by
  cases hq : notQueueLoop matchLines s.body s.vars scope s.notQueue with
  | some e => rw [handleNotQueue_of_some hq]; exact Or.inl rfl
  | none => rw [handleNotQueue_of_none hq]; exact Or.inr rfl

/-!
### Failure atomicity of the individual handlers
-/

theorem handleInOrder_some_inv {matchLines : TestStatement σ → L → ν → Option ν}
    {s : ExecutionState σ L ν} {st : TestStatement σ} {e : PyError σ ν}
    {s' : ExecutionState σ L ν}
    (h : ExecutionState.handleInOrder matchLines s st = (some e, s')) : s' = s := by
  rw [ExecutionState.handleInOrder] at h
  cases hf : findMatchingLine matchLines st s.body ⟨s.cursor, s.c1Length⟩ s.vars with
  | error e' => rw [hf] at h; injection h with h1 h2; exact h2.symm
  | ok m => rw [hf] at h; exact moveCursor_some_inv h

theorem handleNextLine_some_inv {matchLines : TestStatement σ → L → ν → Option ν}
    {s : ExecutionState σ L ν} {st : TestStatement σ} {e : PyError σ ν}
    {s' : ExecutionState σ L ν}
    (h : ExecutionState.handleNextLine matchLines s st = (some e, s')) : s' = s := by
  rw [ExecutionState.handleNextLine] at h
  cases hf : findMatchingLine matchLines st s.body ⟨s.cursor, s.cursor + 1⟩ s.vars with
  | error e' => rw [hf] at h; injection h with h1 h2; exact h2.symm
  | ok m => rw [hf] at h; exact moveCursor_some_inv h

theorem handleEval_some_inv {evaluateLine : TestStatement σ → ν → Bool}
    {s : ExecutionState σ L ν} {st : TestStatement σ} {e : PyError σ ν}
    {s' : ExecutionState σ L ν}
    (h : ExecutionState.handleEval evaluateLine s st = (some e, s')) : s' = s := by
  have := handleEval_snd evaluateLine s st
  rw [h] at this
  exact this

theorem handleEOF_some_inv {matchLines : TestStatement σ → L → ν → Option ν}
    {noneVars : ν} {s : ExecutionState σ L ν} {e : PyError σ ν}
    {s' : ExecutionState σ L ν}
    (h : ExecutionState.handleEOF matchLines noneVars s = (some e, s')) : s' = s := by
  rw [ExecutionState.handleEOF] at h
  exact moveCursor_some_inv h

theorem handleDagQueue_some_inv {matchLines : TestStatement σ → L → ν → Option ν}
    {s : ExecutionState σ L ν} {scope : MatchScope} {e : PyError σ ν}
    {s' : ExecutionState σ L ν}
    (h : ExecutionState.handleDagQueue matchLines s scope = (some e, s')) :
    s' = s ∨ s' = { s with dagQueue := [] } := by
  rw [ExecutionState.handleDagQueue] at h
  cases hdq : s.dagQueue with
  | nil => rw [hdq] at h; injection h with h1 h2; exact Option.noConfusion h1
  | cons q qs =>
    rw [hdq] at h
    cases hdl : dagLoop matchLines s.body scope (q :: qs) [] s.vars with
    | error e' =>
      simp only [hdl] at h
      injection h with h1 h2; exact Or.inl h2.symm
    | ok p =>
      obtain ⟨ls, v⟩ := p
      simp only [hdl] at h
      cases ls with
      | nil => injection h with h1 h2; exact Or.inl h2.symm
      | cons i is => exact Or.inr (moveCursor_some_inv h)

theorem dispatchFlush_some_inv {matchLines : TestStatement σ → L → ν → Option ν}
    {s : ExecutionState σ L ν} {ost : Option (TestStatement σ)} {e : PyError σ ν}
    {s' : ExecutionState σ L ν}
    (h : ExecutionState.dispatchFlush matchLines s ost = (some e, s')) :
    s' = s ∨ s' = { s with dagQueue := [] } := by
  rw [ExecutionState.dispatchFlush] at h
  by_cases hv : ost.map TestStatement.variant ≠ some Variant.DAG
  · rw [if_pos hv] at h; exact handleDagQueue_some_inv h
  · rw [if_neg hv] at h; injection h with h1 h2; exact Or.inl h2.symm

theorem matchAt_some_lt {matchLines : TestStatement σ → L → ν → Option ν}
    {statement : TestStatement σ} {body : List L} {vars : ν} {i : Nat} {nv : ν}
    (h : matchAt matchLines statement body vars i = some nv) : i < body.length := by
  rw [matchAt] at h
  cases hget : body.get? i with
  | none => rw [hget] at h; exact Option.noConfusion h
  | some line =>
    rcases List.get?_eq_some.mp hget with ⟨hl, _⟩
    exact hl

theorem moveCursor_frame (matchLines : TestStatement σ → L → ν → Option ν)
    (s : ExecutionState σ L ν) (m : MatchInfo ν) :
    (ExecutionState.moveCursor matchLines s m).2.body = s.body ∧
    (ExecutionState.moveCursor matchLines s m).2.c1Length = s.c1Length := by
  by_cases hc : s.cursor ≤ m.scope.stop
  · cases hq : notQueueLoop matchLines s.body s.vars ⟨s.cursor, m.scope.start⟩ s.notQueue with
    | some e => rw [moveCursor_of_notfail hc hq]; exact ⟨rfl, rfl⟩
    | none => rw [moveCursor_of_ok hc hq]; exact ⟨rfl, rfl⟩
  · rw [moveCursor_of_assert hc]; exact ⟨rfl, rfl⟩

theorem handleDagQueue_frame {matchLines : TestStatement σ → L → ν → Option ν}
    {s : ExecutionState σ L ν} {scope : MatchScope} :
    (ExecutionState.handleDagQueue matchLines s scope).2.body = s.body ∧
    (ExecutionState.handleDagQueue matchLines s scope).2.c1Length = s.c1Length := by
  rw [ExecutionState.handleDagQueue]
  cases hdq : s.dagQueue with
  | nil => exact ⟨rfl, rfl⟩
  | cons q qs =>
    cases hdl : dagLoop matchLines s.body scope (q :: qs) [] s.vars with
    | error e => exact ⟨rfl, rfl⟩
    | ok p =>
      obtain ⟨ls, v⟩ := p
      cases ls with
      | nil => exact ⟨rfl, rfl⟩
      | cons i is =>
        exact moveCursor_frame matchLines { s with dagQueue := [] }
          ⟨⟨listMin (i :: is), listMax (i :: is)⟩, v⟩

theorem dispatchFlush_frame (matchLines : TestStatement σ → L → ν → Option ν)
    (s : ExecutionState σ L ν) (ost : Option (TestStatement σ)) :
    (ExecutionState.dispatchFlush matchLines s ost).2.body = s.body ∧
    (ExecutionState.dispatchFlush matchLines s ost).2.c1Length = s.c1Length := by
  rw [ExecutionState.dispatchFlush]
  by_cases hv : ost.map TestStatement.variant ≠ some Variant.DAG
  · rw [if_pos hv]; exact handleDagQueue_frame
  · rw [if_neg hv]; exact ⟨rfl, rfl⟩

/-!
### Success characterisations of the single-statement handlers
-/

theorem handleInOrder_none_inv {matchLines : TestStatement σ → L → ν → Option ν}
    {s : ExecutionState σ L ν} {st : TestStatement σ} {s' : ExecutionState σ L ν}
    (h : ExecutionState.handleInOrder matchLines s st = (none, s')) :
    ∃ i nv, IsFirstMatch matchLines st s.body s.vars s.cursor
        (s.cursor + (s.c1Length - s.cursor)) [] i nv ∧
      notQueueLoop matchLines s.body s.vars ⟨s.cursor, i⟩ s.notQueue = none ∧
      s' = { s with notQueue := [], cursor := i + 1, vars := nv } := by
  rw [ExecutionState.handleInOrder] at h
  cases hf : findMatchingLine matchLines st s.body ⟨s.cursor, s.c1Length⟩ s.vars with
  | error e => rw [hf] at h; injection h with h1 h2; exact Option.noConfusion h1
  | ok m =>
    rw [hf] at h
    obtain ⟨i, nv, rfl, hfm⟩ := findLoop_ok _ _ _ hf
    obtain ⟨hc, hq, hs⟩ := moveCursor_none_inv h
    exact ⟨i, nv, hfm, hq, hs⟩

theorem handleNextLine_none_inv {matchLines : TestStatement σ → L → ν → Option ν}
    {s : ExecutionState σ L ν} {st : TestStatement σ} {s' : ExecutionState σ L ν}
    (h : ExecutionState.handleNextLine matchLines s st = (none, s')) :
    ∃ i nv, IsFirstMatch matchLines st s.body s.vars s.cursor
        (s.cursor + (s.cursor + 1 - s.cursor)) [] i nv ∧
      notQueueLoop matchLines s.body s.vars ⟨s.cursor, i⟩ s.notQueue = none ∧
      s' = { s with notQueue := [], cursor := i + 1, vars := nv } := by
  rw [ExecutionState.handleNextLine] at h
  cases hf : findMatchingLine matchLines st s.body ⟨s.cursor, s.cursor + 1⟩ s.vars with
  | error e => rw [hf] at h; injection h with h1 h2; exact Option.noConfusion h1
  | ok m =>
    rw [hf] at h
    obtain ⟨i, nv, rfl, hfm⟩ := findLoop_ok _ _ _ hf
    obtain ⟨hc, hq, hs⟩ := moveCursor_none_inv h
    exact ⟨i, nv, hfm, hq, hs⟩

theorem handleInOrder_of_firstMatch {matchLines : TestStatement σ → L → ν → Option ν}
    {s : ExecutionState σ L ν} {st : TestStatement σ} {i : Nat} {nv : ν}
    (hfm : IsFirstMatch matchLines st s.body s.vars s.cursor
      (s.cursor + (s.c1Length - s.cursor)) [] i nv) :
    ExecutionState.handleInOrder matchLines s st
      = ExecutionState.moveCursor matchLines s ⟨⟨i, i⟩, nv⟩ := by
  have hok : findLoop matchLines st s.body s.vars [] s.cursor
      (List.range' s.cursor (s.c1Length - s.cursor)) = .ok ⟨⟨i, i⟩, nv⟩ :=
    findLoop_complete _ _ _ _ hfm
  rw [ExecutionState.handleInOrder, findMatchingLine]
  dsimp only
  rw [hok]

theorem handleNextLine_of_firstMatch {matchLines : TestStatement σ → L → ν → Option ν}
    {s : ExecutionState σ L ν} {st : TestStatement σ} {i : Nat} {nv : ν}
    (hfm : IsFirstMatch matchLines st s.body s.vars s.cursor
      (s.cursor + (s.cursor + 1 - s.cursor)) [] i nv) :
    ExecutionState.handleNextLine matchLines s st
      = ExecutionState.moveCursor matchLines s ⟨⟨i, i⟩, nv⟩ := by
  have hok : findLoop matchLines st s.body s.vars [] s.cursor
      (List.range' s.cursor (s.cursor + 1 - s.cursor)) = .ok ⟨⟨i, i⟩, nv⟩ :=
    findLoop_complete _ _ _ _ hfm
  rw [ExecutionState.handleNextLine, findMatchingLine]
  dsimp only
  rw [hok]

theorem handleInOrder_of_noMatch {matchLines : TestStatement σ → L → ν → Option ν}
    {s : ExecutionState σ L ν} {st : TestStatement σ}
    (hlen : s.c1Length ≤ s.body.length)
    (hall : ∀ j, s.cursor ≤ j → j < s.c1Length →
      matchAt matchLines st s.body s.vars j = none) :
    ExecutionState.handleInOrder matchLines s st
      = (some (.matchFailed ⟨st, s.cursor, s.vars⟩), s) := by
  have hfail : findLoop matchLines st s.body s.vars [] s.cursor
      (List.range' s.cursor (s.c1Length - s.cursor))
      = .error (.matchFailed ⟨st, s.cursor, s.vars⟩) :=
    findLoop_fail_of _ _ (fun j h1 h2 => by omega)
      (fun j h1 h2 _ => hall j h1 (by omega))
  rw [ExecutionState.handleInOrder, findMatchingLine]
  dsimp only
  rw [hfail]

theorem handleNextLine_of_noMatch {matchLines : TestStatement σ → L → ν → Option ν}
    {s : ExecutionState σ L ν} {st : TestStatement σ}
    (hlen : s.cursor < s.body.length)
    (hall : matchAt matchLines st s.body s.vars s.cursor = none) :
    ExecutionState.handleNextLine matchLines s st
      = (some (.matchFailed ⟨st, s.cursor, s.vars⟩), s) := by
  have hfail : findLoop matchLines st s.body s.vars [] s.cursor
      (List.range' s.cursor (s.cursor + 1 - s.cursor))
      = .error (.matchFailed ⟨st, s.cursor, s.vars⟩) :=
    findLoop_fail_of _ _ (fun j h1 h2 => by omega)
      (fun j h1 h2 _ => by
        have hj : j = s.cursor := by omega
        rw [hj]; exact hall)
  rw [ExecutionState.handleNextLine, findMatchingLine]
  dsimp only
  rw [hfail]

/-!
### Characterisation of the DAG loop
-/

theorem dagLoop_ok_bounds {matchLines : TestStatement σ → L → ν → Option ν}
    {body : List L} {scope : MatchScope} :
    ∀ (queue : List (TestStatement σ)) (acc : List Nat) (v : ν)
      (ls : List Nat) (v' : ν),
      dagLoop matchLines body scope queue acc v = .ok (ls, v') →
      ∀ i ∈ ls, i ∈ acc ∨
        (scope.start ≤ i ∧ i < scope.stop ∧ i < body.length) := by
  intro queue
  induction queue with
  | nil =>
    intro acc v ls v' h i hi
    rw [dagLoop] at h
    injection h with h
    injection h with h1 h2
    exact Or.inl (h1 ▸ hi)
  | cons q qs ih =>
    intro acc v ls v' h i hi
    rw [dagLoop] at h
    by_cases hv : q.variant = Variant.DAG
    · rw [if_pos hv] at h
      cases hf : findMatchingLine matchLines q body scope v acc with
      | error e => rw [hf] at h; exact Except.noConfusion h
      | ok m =>
        rw [hf] at h
        obtain ⟨j, nv, rfl, hfm⟩ := findLoop_ok _ _ _ hf
        obtain ⟨hfm1, hfm2, hfm3, hfm4, hfm5⟩ := hfm
        dsimp only at h
        rw [if_pos rfl, if_neg hfm3] at h
        rcases ih (acc ++ [j]) nv ls v' h i hi with hmem | hb
        · rcases List.mem_append.mp hmem with hmem' | hmem'
          · exact Or.inl hmem'
          · have hij : i = j := List.mem_singleton.mp hmem'
            subst hij
            exact Or.inr ⟨hfm1, by omega, matchAt_some_lt hfm4⟩
        · exact Or.inr hb
    · rw [if_neg hv] at h; exact Except.noConfusion h

theorem handleDagQueue_nil {matchLines : TestStatement σ → L → ν → Option ν}
    {s : ExecutionState σ L ν} {scope : MatchScope}
    (h : s.dagQueue = []) :
    ExecutionState.handleDagQueue matchLines s scope = (none, s) := by
  rw [ExecutionState.handleDagQueue, h]

theorem handleDagQueue_none_inv {matchLines : TestStatement σ → L → ν → Option ν}
    {s : ExecutionState σ L ν} {scope : MatchScope} {s' : ExecutionState σ L ν}
    (h : ExecutionState.handleDagQueue matchLines s scope = (none, s')) :
    (s.dagQueue = [] ∧ s' = s) ∨
    ∃ ls v, s.dagQueue ≠ [] ∧ ls ≠ [] ∧
      dagLoop matchLines s.body scope s.dagQueue [] s.vars = .ok (ls, v) ∧
      s.cursor ≤ listMax ls ∧
      notQueueLoop matchLines s.body s.vars ⟨s.cursor, listMin ls⟩ s.notQueue = none ∧
      s' = { s with
             dagQueue := [], notQueue := [],
             cursor := listMax ls + 1, vars := v } := by
  rw [ExecutionState.handleDagQueue] at h
  cases hdq : s.dagQueue with
  | nil =>
    rw [hdq] at h
    injection h with h1 h2
    exact Or.inl ⟨rfl, h2.symm⟩
  | cons q qs =>
    rw [hdq] at h
    cases hdl : dagLoop matchLines s.body scope (q :: qs) [] s.vars with
    | error e => simp only [hdl] at h; injection h with h1 h2; exact Option.noConfusion h1
    | ok p =>
      obtain ⟨ls, v⟩ := p
      simp only [hdl] at h
      cases ls with
      | nil => injection h with h1 h2; exact Option.noConfusion h1
      | cons i is =>
        obtain ⟨hc, hq, hs⟩ := moveCursor_none_inv h
        refine Or.inr ⟨i :: is, v, List.cons_ne_nil q qs,
          List.cons_ne_nil i is, rfl, hc, hq, ?_⟩
        exact hs

/-!
### Failure atomicity of `handle` relative to the dispatch flush
-/

theorem dispatchFlush_some_preserves {matchLines : TestStatement σ → L → ν → Option ν}
    {s : ExecutionState σ L ν} {ost : Option (TestStatement σ)} {e : PyError σ ν}
    {s' : ExecutionState σ L ν}
    (h : ExecutionState.dispatchFlush matchLines s ost = (some e, s')) :
    s'.cursor = s.cursor ∧ s'.vars = s.vars ∧ s'.notQueue = s.notQueue := by
  rcases dispatchFlush_some_inv h with rfl | rfl
  · exact ⟨rfl, rfl, rfl⟩
  · exact ⟨rfl, rfl, rfl⟩

theorem handle_some_inv {matchLines : TestStatement σ → L → ν → Option ν}
    {evaluateLine : TestStatement σ → ν → Bool} {noneVars : ν}
    {s : ExecutionState σ L ν} {ost : Option (TestStatement σ)} {e : PyError σ ν}
    {s' : ExecutionState σ L ν}
    (h : ExecutionState.handle matchLines evaluateLine noneVars s ost = (some e, s')) :
    s'.cursor = (ExecutionState.dispatchFlush matchLines s ost).2.cursor ∧
    s'.vars = (ExecutionState.dispatchFlush matchLines s ost).2.vars := by
  cases hf : ExecutionState.dispatchFlush matchLines s ost with
  | mk e? s₁ =>
    cases e? with
    | some e' =>
      rw [handle_flush_some hf] at h
      injection h with h1 h2
      rw [h2.symm]
      exact ⟨rfl, rfl⟩
    | none =>
      cases ost with
      | none =>
        rw [handle_eof hf] at h
        rw [ExecutionState.handleEOF] at h
        rw [moveCursor_some_inv h]
        exact ⟨rfl, rfl⟩
      | some st =>
        cases hv : st.variant
        · rw [handle_inOrder hf hv] at h
          rw [handleInOrder_some_inv h]
          exact ⟨rfl, rfl⟩
        · rw [handle_nextLine hf hv] at h
          rw [handleNextLine_some_inv h]
          exact ⟨rfl, rfl⟩
        · rw [handle_dagBuffer hv] at h
          injection h with h1 h2
          exact Option.noConfusion h1
        · rw [handle_notBuffer hf hv] at h
          injection h with h1 h2
          exact Option.noConfusion h1
        · rw [handle_eval hf hv] at h
          rw [handleEval_some_inv h]
          exact ⟨rfl, rfl⟩

/-- The claim-level description of one flushed DAG group: the queued
statements are processed in their original list order; each matches the
earliest line of `scope` not already claimed by an earlier statement of
the same group; bindings thread sequentially in group order (`v` in,
`v'` out); `lines` records the matched indices in group order. -/
def DagMatchSeq (matchLines : TestStatement σ → L → ν → Option ν)
    (body : List L) (scope : MatchScope) :
    List (TestStatement σ) → List Nat → ν → List Nat → ν → Prop
  | [], _, v, lines, v' => lines = [] ∧ v' = v
  | st :: rest, claimed, v, lines, v' =>
    ∃ i nv tail, lines = i :: tail ∧
      scope.start ≤ i ∧ i < scope.stop ∧ i ∉ claimed ∧
      matchAt matchLines st body v i = some nv ∧
      (∀ j, scope.start ≤ j → j < i → j ∉ claimed →
        matchAt matchLines st body v j = none) ∧
      DagMatchSeq matchLines body scope rest (claimed ++ [i]) nv tail v'

theorem dagLoop_ok_seq {matchLines : TestStatement σ → L → ν → Option ν}
    {body : List L} {scope : MatchScope} :
    ∀ (queue : List (TestStatement σ)) (acc : List Nat) (v : ν)
      (ls : List Nat) (v' : ν),
      (∀ st ∈ queue, st.variant = Variant.DAG) →
      dagLoop matchLines body scope queue acc v = .ok (ls, v') →
      ∃ newLines, ls = acc ++ newLines ∧
        DagMatchSeq matchLines body scope queue acc v newLines v' := by
  intro queue
  induction queue with
  | nil =>
    intro acc v ls v' _ h
    rw [dagLoop] at h
    injection h with h
    injection h with h1 h2
    exact ⟨[], by rw [List.append_nil]; exact h1.symm, rfl, h2.symm⟩
  | cons q qs ih =>
    intro acc v ls v' hvar h
    rw [dagLoop, if_pos (hvar q (List.mem_cons_self q qs))] at h
    cases hf : findMatchingLine matchLines q body scope v acc with
    | error e => rw [hf] at h; exact Except.noConfusion h
    | ok m =>
      rw [hf] at h
      obtain ⟨j, nv, rfl, hfm⟩ := findLoop_ok _ _ _ hf
      obtain ⟨hfm1, hfm2, hfm3, hfm4, hfm5⟩ := hfm
      dsimp only at h
      rw [if_pos rfl, if_neg hfm3] at h
      obtain ⟨tail, hls, hseq⟩ :=
        ih (acc ++ [j]) nv ls v' (fun t ht => hvar t (List.mem_cons_of_mem q ht)) h
      refine ⟨j :: tail, ?_, j, nv, tail, rfl, hfm1, by omega, hfm3, hfm4, hfm5, hseq⟩
      rw [hls, List.append_assoc, List.singleton_append]

theorem dagMatchSeq_props {matchLines : TestStatement σ → L → ν → Option ν}
    {body : List L} {scope : MatchScope} :
    ∀ (queue : List (TestStatement σ)) (claimed : List Nat) (v : ν)
      (lines : List Nat) (v' : ν),
      DagMatchSeq matchLines body scope queue claimed v lines v' →
      lines.Nodup ∧
      (∀ i ∈ lines, i ∉ claimed ∧ scope.start ≤ i ∧ i < scope.stop) ∧
      lines.length = queue.length := by
  intro queue
  induction queue with
  | nil =>
    intro claimed v lines v' h
    obtain ⟨rfl, _⟩ := h
    exact ⟨List.nodup_nil, fun i hi => absurd hi (List.not_mem_nil i), rfl⟩
  | cons q qs ih =>
    intro claimed v lines v' h
    obtain ⟨i, nv, tail, rfl, h1, h2, h3, _, _, hseq⟩ := h
    obtain ⟨hnd, hb, hlen⟩ := ih (claimed ++ [i]) nv tail v' hseq
    refine ⟨List.nodup_cons.mpr ⟨?_, hnd⟩, ?_, by simp [hlen]⟩
    · intro hmem
      exact (hb i hmem).1 (List.mem_append.mpr (Or.inr (List.mem_singleton.mpr rfl)))
    · intro t ht
      rcases List.mem_cons.mp ht with rfl | ht'
      · exact ⟨h3, h1, h2⟩
      · obtain ⟨htc, hts, htl⟩ := hb t ht'
        exact ⟨fun hc => htc (List.mem_append.mpr (Or.inl hc)), hts, htl⟩

theorem runStatements_cursor_mono {matchLines : TestStatement σ → L → ν → Option ν}
    {evaluateLine : TestStatement σ → ν → Bool} {noneVars : ν} :
    ∀ (sts : List (Option (TestStatement σ))) (s : ExecutionState σ L ν),
      s.cursor ≤ (runStatements matchLines evaluateLine noneVars s sts).2.cursor := by
  intro sts
  induction sts with
  | nil => intro s; exact Nat.le_refl _
  | cons st rest ih =>
    intro s
    rw [runStatements]
    cases hh : ExecutionState.handle matchLines evaluateLine noneVars s st with
    | mk e? s₁ =>
      have h1 : s.cursor ≤ s₁.cursor := by
        have := handle_cursor_mono matchLines evaluateLine noneVars s st
        rw [hh] at this
        exact this
      cases e? with
      | some e => exact h1
      | none => exact Nat.le_trans h1 (ih s₁)

theorem handleDagQueue_cursor_le {matchLines : TestStatement σ → L → ν → Option ν}
    {s : ExecutionState σ L ν} (hc : s.cursor ≤ s.c1Length) :
    (ExecutionState.handleDagQueue matchLines s ⟨s.cursor, s.c1Length⟩).2.cursor
      ≤ s.c1Length := by
  cases hr : ExecutionState.handleDagQueue matchLines s ⟨s.cursor, s.c1Length⟩ with
  | mk e? s' =>
    cases e? with
    | some e =>
      rcases handleDagQueue_some_inv hr with rfl | rfl
      · exact hc
      · exact hc
    | none =>
      rcases handleDagQueue_none_inv hr with ⟨_, rfl⟩ | ⟨ls, v, hne, hlsne, hdl, _, _, rfl⟩
      · exact hc
      · show listMax ls + 1 ≤ s.c1Length
        cases ls with
        | nil => exact absurd rfl hlsne
        | cons i is =>
          have hmem := listMax_mem i is
          rcases dagLoop_ok_bounds _ _ _ _ _ hdl _ hmem with hin | ⟨_, hlt, _⟩
          · exact absurd hin (List.not_mem_nil _)
          · exact hlt

theorem dispatchFlush_cursor_le (matchLines : TestStatement σ → L → ν → Option ν)
    (s : ExecutionState σ L ν) (ost : Option (TestStatement σ))
    (hc : s.cursor ≤ s.c1Length) :
    (ExecutionState.dispatchFlush matchLines s ost).2.cursor ≤ s.c1Length := by
  rw [ExecutionState.dispatchFlush]
  by_cases hv : ost.map TestStatement.variant ≠ some Variant.DAG
  · rw [if_pos hv]; exact handleDagQueue_cursor_le hc
  · rw [if_neg hv]; exact hc

/-!
### Concrete instances used by witnesses and counterexamples

Everywhere below `σ = L = ν = Nat`: a statement with payload `p` matches
exactly the lines whose text is the number `p`, and every successful
match increments the binding counter (so binding propagation is
observable).
-/

/-- A concrete line matcher: payload equality, bindings incremented. -/
def natMatch : TestStatement Nat → Nat → Nat → Option Nat :=
  fun st line v => if st.payload = line then some (v + 1) else none

/-- A concrete expression evaluator that always fails. -/
def natEvalFalse : TestStatement Nat → Nat → Bool := fun _ _ => false

/-- A concrete expression evaluator that always succeeds. -/
def natEvalTrue : TestStatement Nat → Nat → Bool := fun _ _ => true

/-- A one-line pass body with cursor still at 0. -/
def exState1 : ExecutionState Nat Nat Nat := ExecutionState.init [7] 0

/-- A state with an empty body. -/
def exEmptyState : ExecutionState Nat Nat Nat := ExecutionState.init [] 0

def exInOrderStmt : TestStatement Nat := ⟨Variant.InOrder, 5⟩

def exEvalStmt : TestStatement Nat := ⟨Variant.Eval, 0⟩

/-- A state with one buffered DAG statement that matches line 0. -/
def exC10state : ExecutionState Nat Nat Nat := ⟨0, [5], 1, 0, [⟨Variant.DAG, 5⟩], []⟩

/-- A pass used by whole-run counterexamples. -/
def exPass : C1visualizerPass Nat := ⟨"pass", [7], 10⟩

/-- A test case with no statements at all. -/
def exTestCaseEmpty : TestCase Nat := ⟨"pass", [], none, false⟩

/-!
### C7 - cursor monotonicity
-/

/-- C7: for every state and every statement (or the end-of-input marker),
handling never decreases the cursor; consequently a whole run of the
statement list never decreases it either.  This covers InOrder,
NextLine, DAG buffering and flushing, Not buffering, Eval and the
end-of-input marker, on both the success and the failure path. -/
theorem claim_C7_cursor_monotone (matchLines : TestStatement σ → L → ν → Option ν)
    (evaluateLine : TestStatement σ → ν → Bool) (noneVars : ν) :
    (∀ (s : ExecutionState σ L ν) (ost : Option (TestStatement σ)),
      s.cursor ≤ (ExecutionState.handle matchLines evaluateLine noneVars s ost).2.cursor) ∧
    (∀ (sts : List (Option (TestStatement σ))) (s : ExecutionState σ L ν),
      s.cursor ≤ (runStatements matchLines evaluateLine noneVars s sts).2.cursor) :=
  ⟨fun s ost => handle_cursor_mono matchLines evaluateLine noneVars s ost,
   fun sts s => runStatements_cursor_mono sts s⟩

/-!
### C8 - Eval is a pure guard
-/

/-- C8: handling an Eval statement leaves the whole state (cursor,
bindings, both queues) unchanged, succeeds exactly when the expression
evaluator returns `true`, on failure carries the statement, the current
cursor and the current bindings, and its outcome is independent of the
pass body (no line is consulted). -/
theorem claim_C8_eval_frame (evaluateLine : TestStatement σ → ν → Bool)
    (s : ExecutionState σ L ν) (st : TestStatement σ) :
    (ExecutionState.handleEval evaluateLine s st).2 = s ∧
    ((ExecutionState.handleEval evaluateLine s st).1 = none ↔
      evaluateLine st s.vars = true) ∧
    ((ExecutionState.handleEval evaluateLine s st).1 = none ∨
      (ExecutionState.handleEval evaluateLine s st).1
        = some (.matchFailed ⟨st, s.cursor, s.vars⟩)) ∧
    (∀ (body₂ : List L) (len₂ : Nat),
      (ExecutionState.handleEval evaluateLine
        { s with body := body₂, c1Length := len₂ } st).1
        = (ExecutionState.handleEval evaluateLine s st).1) := by
  by_cases he : evaluateLine st s.vars
  · rw [ExecutionState.handleEval, if_pos he]
    refine ⟨rfl, by simp [he], Or.inl rfl, ?_⟩
    intro body₂ len₂
    simp [ExecutionState.handleEval, he]
  · rw [ExecutionState.handleEval, if_neg he]
    refine ⟨rfl, by simp [he], Or.inr rfl, ?_⟩
    intro body₂ len₂
    simp [ExecutionState.handleEval, he]

/-!
### C10 - failure atomicity (corrected)
-/

/-- C10 (counterexample): handling an Eval statement from a state with a
pending DAG statement first commits the successful DAG flush (moving the
cursor from 0 to 1) and only then raises `MatchFailedException`, so after
the failure the cursor does not hold its pre-statement value 0. -/
theorem claim_C10_counterexample :
    (ExecutionState.handle natMatch natEvalFalse 7 exC10state (some exEvalStmt)).1.isSome
      = true ∧
    (ExecutionState.handle natMatch natEvalFalse 7 exC10state (some exEvalStmt)).2.cursor
      ≠ exC10state.cursor := by
  decide

/-- C10 (amended): every individual handler is atomic - if
`handleInOrder`, `handleNextLine`, `handleEval` or `handleEOF` raises,
the state is exactly the state it was given, and a failing dispatch-level
DAG flush preserves cursor and bindings.  `handle` itself, however, first
commits the DAG-queue flush: when it raises, cursor and bindings hold the
values they had right after that flush (which are the pre-statement
values whenever the DAG queue was empty), not necessarily the values
from before the statement was handled. -/
theorem claim_C10_fail_atomic (matchLines : TestStatement σ → L → ν → Option ν)
    (evaluateLine : TestStatement σ → ν → Bool) (noneVars : ν)
    (s : ExecutionState σ L ν) :
    (∀ (ost : Option (TestStatement σ)) (e : PyError σ ν) (s' : ExecutionState σ L ν),
      ExecutionState.handle matchLines evaluateLine noneVars s ost = (some e, s') →
      s'.cursor = (ExecutionState.dispatchFlush matchLines s ost).2.cursor ∧
      s'.vars = (ExecutionState.dispatchFlush matchLines s ost).2.vars) ∧
    (∀ (ost : Option (TestStatement σ)) (e : PyError σ ν) (s' : ExecutionState σ L ν),
      ExecutionState.dispatchFlush matchLines s ost = (some e, s') →
      s'.cursor = s.cursor ∧ s'.vars = s.vars) ∧
    (∀ (st : TestStatement σ) (e : PyError σ ν) (s' : ExecutionState σ L ν),
      ExecutionState.handleInOrder matchLines s st = (some e, s') → s' = s) ∧
    (∀ (st : TestStatement σ) (e : PyError σ ν) (s' : ExecutionState σ L ν),
      ExecutionState.handleNextLine matchLines s st = (some e, s') → s' = s) ∧
    (∀ (st : TestStatement σ) (e : PyError σ ν) (s' : ExecutionState σ L ν),
      ExecutionState.handleEval evaluateLine s st = (some e, s') → s' = s) ∧
    (∀ (e : PyError σ ν) (s' : ExecutionState σ L ν),
      ExecutionState.handleEOF matchLines noneVars s = (some e, s') → s' = s) :=
  ⟨fun _ _ _ h => handle_some_inv h,
   fun _ _ _ h => ⟨(dispatchFlush_some_preserves h).1, (dispatchFlush_some_preserves h).2.1⟩,
   fun _ _ _ h => handleInOrder_some_inv h,
   fun _ _ _ h => handleNextLine_some_inv h,
   fun _ _ _ h => handleEval_some_inv h,
   fun _ _ h => handleEOF_some_inv h⟩

/-- Witness for the amended C10 at a concrete failing input: an InOrder
statement that matches no line of an empty pass fails and leaves the
state untouched. -/
theorem claim_C10_witness :
    ExecutionState.handleInOrder natMatch exEmptyState exInOrderStmt
        = (some (.matchFailed ⟨exInOrderStmt, 0, 0⟩), exEmptyState) ∧
    exEmptyState = exEmptyState :=
  ⟨by decide,
   (claim_C10_fail_atomic natMatch natEvalFalse 7 exEmptyState).2.2.1
     exInOrderStmt (.matchFailed ⟨exInOrderStmt, 0, 0⟩) exEmptyState (by decide)⟩

/-- A state with a NOT statement queued that matches no line. -/
def exNotState : ExecutionState Nat Nat Nat := ⟨0, [3], 1, 0, [], [⟨Variant.Not, 9⟩]⟩

/-!
### C1 - the synthetic end-of-input statement (corrected)
-/

/-- C1 (counterexample): with a one-line pass and no statements, the
cursor is 0 < 1 = len(pass.lines) when the end-of-input marker is
handled, yet `handleEOF` succeeds, and the whole run succeeds - the
code never compares `cursor` with `len(pass.lines)`. -/
theorem claim_C1_counterexample :
    exState1.cursor < exState1.c1Length ∧
    (ExecutionState.handleEOF natMatch 99 exState1).1 = none ∧
    (MatchTestCase natMatch natEvalTrue 99 0 exTestCaseEmpty exPass).1 = none := by
  decide

/-- C1 (amended): after the final DAG flush, the end-of-input marker
verifies the NOT queue over `[cursor, len)` and succeeds exactly when no
queued Not statement matches a line there - regardless of whether
`cursor = len(pass.lines)`; on success it sets the cursor to `len + 1`
and stores the `None` marker in the bindings slot. -/
theorem claim_C1_amended (matchLines : TestStatement σ → L → ν → Option ν)
    (noneVars : ν) (s : ExecutionState σ L ν)
    (hc : s.cursor ≤ s.c1Length) (hlen : s.c1Length ≤ s.body.length)
    (hvar : ∀ st ∈ s.notQueue, st.variant = Variant.Not) :
    ((ExecutionState.handleEOF matchLines noneVars s).1 = none ↔
      ∀ st ∈ s.notQueue, ∀ j, s.cursor ≤ j → j < s.c1Length →
        matchAt matchLines st s.body s.vars j = none) ∧
    ((ExecutionState.handleEOF matchLines noneVars s).1 = none →
      (ExecutionState.handleEOF matchLines noneVars s).2
        = { s with notQueue := [], cursor := s.c1Length + 1, vars := noneVars }) := by
  rw [ExecutionState.handleEOF]
  cases hq : notQueueLoop matchLines s.body s.vars ⟨s.cursor, s.c1Length⟩ s.notQueue with
  | some e =>
    rw [moveCursor_of_notfail hc hq]
    constructor
    · constructor
      · intro h; exact Option.noConfusion h
      · intro hall
        obtain ⟨st, j, nv, hst, h1, h2, h3, _⟩ := notQueueLoop_some hlen _ hvar e hq
        have := hall st hst j h1 h2
        rw [this] at h3
        exact Option.noConfusion h3
    · intro h; exact Option.noConfusion h
  | none =>
    rw [moveCursor_of_ok hc hq]
    exact ⟨⟨fun _ => (notQueueLoop_none_iff hlen _ hvar).mp hq, fun _ => rfl⟩,
      fun _ => rfl⟩

/-- Witness for the amended C1: a state whose NOT queue holds one
statement that matches nothing; the end-of-input marker succeeds with
cursor 0 < len 1 and moves the cursor to 2. -/
theorem claim_C1_witness :
    (ExecutionState.handleEOF natMatch 99 exNotState).2
      = { exNotState with notQueue := [], cursor := exNotState.c1Length + 1, vars := 99 } :=
  (claim_C1_amended natMatch 99 exNotState (by decide) (by decide)
    (by decide)).2 (by decide)

/-!
### C2 - the cursor bound invariant (corrected)
-/

/-- C2 (counterexample): handling the end-of-input marker sets the
cursor to `len(pass.lines) + 1`, so `cursor ≤ len(pass.lines)` does
not hold after it: with one line, the final cursor is 2.  The same is
visible at the end of a whole successful run. -/
theorem claim_C2_counterexample :
    exState1.c1Length < (ExecutionState.handleEOF natMatch 99 exState1).2.cursor ∧
    exPass.body.length
      < (MatchTestCase natMatch natEvalTrue 99 0 exTestCaseEmpty exPass).2.cursor := by
  decide

/-- C2 (amended): `0 ≤ cursor` always (the cursor is a natural number),
and every transition on a real statement preserves
`cursor ≤ len(pass.lines)`; the end-of-input transition guarantees only
`cursor ≤ len(pass.lines) + 1` because its success path sets the cursor
to `len + 1`. -/
theorem claim_C2_amended (matchLines : TestStatement σ → L → ν → Option ν)
    (evaluateLine : TestStatement σ → ν → Bool) (noneVars : ν)
    (s : ExecutionState σ L ν)
    (hlen : s.c1Length = s.body.length) (hc : s.cursor ≤ s.c1Length) :
    (∀ st, (ExecutionState.handle matchLines evaluateLine noneVars s (some st)).2.cursor
      ≤ s.c1Length) ∧
    (ExecutionState.handle matchLines evaluateLine noneVars s none).2.cursor
      ≤ s.c1Length + 1 := by
  constructor
  · intro st
    cases hf : ExecutionState.dispatchFlush matchLines s (some st) with
    | mk e? s₁ =>
      have hc₁ : s₁.cursor ≤ s.c1Length := by
        have := dispatchFlush_cursor_le matchLines s (some st) hc
        rw [hf] at this
        exact this
      have hfr : s₁.body = s.body ∧ s₁.c1Length = s.c1Length := by
        have := dispatchFlush_frame matchLines s (some st)
        rw [hf] at this
        exact this
      cases e? with
      | some e => rw [handle_flush_some hf]; exact hc₁
      | none =>
        cases hv : st.variant
        · rw [handle_inOrder hf hv]
          cases hr : ExecutionState.handleInOrder matchLines s₁ st with
          | mk e₂ s₂ =>
            cases e₂ with
            | some e => rw [handleInOrder_some_inv hr]; exact hc₁
            | none =>
              obtain ⟨i, nv, ⟨h1, h2, _, _, _⟩, _, rfl⟩ := handleInOrder_none_inv hr
              show i + 1 ≤ s.c1Length
              rw [hfr.2] at h2
              omega
        · rw [handle_nextLine hf hv]
          cases hr : ExecutionState.handleNextLine matchLines s₁ st with
          | mk e₂ s₂ =>
            cases e₂ with
            | some e => rw [handleNextLine_some_inv hr]; exact hc₁
            | none =>
              obtain ⟨i, nv, ⟨h1, h2, _, h4, _⟩, _, rfl⟩ := handleNextLine_none_inv hr
              show i + 1 ≤ s.c1Length
              have := matchAt_some_lt h4
              rw [hfr.1, ← hlen] at this
              omega
        · rw [handle_dagBuffer hv]
          show s.cursor ≤ s.c1Length
          exact hc
        · rw [handle_notBuffer hf hv]; exact hc₁
        · rw [handle_eval hf hv, handleEval_snd evaluateLine s₁ st]; exact hc₁
  · cases hf : ExecutionState.dispatchFlush matchLines s none with
    | mk e? s₁ =>
      have hc₁ : s₁.cursor ≤ s.c1Length := by
        have := dispatchFlush_cursor_le matchLines s none hc
        rw [hf] at this
        exact this
      have hfr : s₁.body = s.body ∧ s₁.c1Length = s.c1Length := by
        have := dispatchFlush_frame matchLines s none
        rw [hf] at this
        exact this
      cases e? with
      | some e =>
        rw [handle_flush_some hf]
        show s₁.cursor ≤ s.c1Length + 1
        omega
      | none =>
        rw [handle_eof hf, ExecutionState.handleEOF]
        cases hr : ExecutionState.moveCursor matchLines s₁
            ⟨⟨s₁.c1Length, s₁.c1Length⟩, noneVars⟩ with
        | mk e₂ s₂ =>
          cases e₂ with
          | some e =>
            rw [moveCursor_some_inv hr]
            show s₁.cursor ≤ s.c1Length + 1
            omega
          | none =>
            obtain ⟨_, _, rfl⟩ := moveCursor_none_inv hr
            show s₁.c1Length + 1 ≤ s.c1Length + 1
            rw [hfr.2]

/-- Witness for the amended C2 at a concrete input. -/
theorem claim_C2_witness :
    (ExecutionState.handle natMatch natEvalTrue 99 exState1 (some exInOrderStmt)).2.cursor
      ≤ exState1.c1Length :=
  (claim_C2_amended natMatch natEvalTrue 99 exState1 (by decide) (by decide)).1
    exInOrderStmt

/-!
### C3 - NextLine at the end of the pass (code bug)
-/

def exNextStmt : TestStatement Nat := ⟨Variant.NextLine, 4⟩

/-- A one-line pass whose only line is matched by `exNextStmt`. -/
def exPassA : C1visualizerPass Nat := ⟨"fp", [4], 20⟩

/-- Two NextLine statements: the second one is handled with
`cursor = len(pass.lines)`. -/
def exTcNext : TestCase Nat := ⟨"fp", [exNextStmt, exNextStmt], none, false⟩

/-- C3 (code bug): a NextLine statement handled at
`cursor = len(pass.lines)` makes `findMatchingLine` read
`c1Pass.body[cursor]`, one past the end of the list - in Python an
uncaught `IndexError`, not the structured `MatchFailedException` the
claim (and the handler's own docstring) promise.  The run below reaches
exactly that state: the first NextLine statement matches line 0 and
moves the cursor to 1 = len, the second one crashes. -/
theorem claim_C3_code_bug :
    (MatchTestCase natMatch natEvalTrue 99 0 exTcNext exPassA).1
      = some PyError.indexError := by
  decide

/-!
### C4 - InOrder semantics
-/

/-- C4: an InOrder statement scans `[cursor, len)` strictly forward under
the current bindings.  If no line in scope matches, it fails with the
statement, the scope's start (`cursor`) and the current bindings, leaving
the state untouched.  If `i` is the first matching index (producing
bindings `nv`), the handler behaves exactly as `moveCursor` on the match
`⟨⟨i, i⟩, nv⟩`: it verifies the NOT queue over the skipped scope
`[cursor, i)` and, when that succeeds, sets `cursor = i + 1` and replaces
the bindings with `nv`, clearing the NOT queue. -/
theorem claim_C4_inOrder (matchLines : TestStatement σ → L → ν → Option ν)
    (s : ExecutionState σ L ν) (st : TestStatement σ)
    (hlen : s.c1Length ≤ s.body.length) :
    ((∀ j, s.cursor ≤ j → j < s.c1Length →
        matchAt matchLines st s.body s.vars j = none) →
      ExecutionState.handleInOrder matchLines s st
        = (some (.matchFailed ⟨st, s.cursor, s.vars⟩), s)) ∧
    (∀ i nv, s.cursor ≤ i → i < s.c1Length →
      matchAt matchLines st s.body s.vars i = some nv →
      (∀ j, s.cursor ≤ j → j < i → matchAt matchLines st s.body s.vars j = none) →
      ExecutionState.handleInOrder matchLines s st
        = ExecutionState.moveCursor matchLines s ⟨⟨i, i⟩, nv⟩) ∧
    (∀ i nv, s.cursor ≤ i → i < s.c1Length →
      matchAt matchLines st s.body s.vars i = some nv →
      (∀ j, s.cursor ≤ j → j < i → matchAt matchLines st s.body s.vars j = none) →
      notQueueLoop matchLines s.body s.vars ⟨s.cursor, i⟩ s.notQueue = none →
      ExecutionState.handleInOrder matchLines s st
        = (none, { s with notQueue := [], cursor := i + 1, vars := nv })) := by
  refine ⟨fun hall => handleInOrder_of_noMatch hlen hall, ?_, ?_⟩
  · intro i nv h1 h2 h3 h4
    exact handleInOrder_of_firstMatch
      ⟨h1, by omega, List.not_mem_nil i, h3, fun j hj1 hj2 _ => h4 j hj1 hj2⟩
  · intro i nv h1 h2 h3 h4 h5
    rw [handleInOrder_of_firstMatch
      ⟨h1, by omega, List.not_mem_nil i, h3, fun j hj1 hj2 _ => h4 j hj1 hj2⟩]
    exact moveCursor_of_ok h1 h5

/-- A two-line pass, cursor at 0, and an InOrder statement matching the
second line only. -/
def exBody2State : ExecutionState Nat Nat Nat := ExecutionState.init [9, 4] 0

def exInOrder4 : TestStatement Nat := ⟨Variant.InOrder, 4⟩

/-- Witness for C4: the statement skips line 0, matches line 1, the
cursor moves to 2 and the bindings are the match's result. -/
theorem claim_C4_witness :
    ExecutionState.handleInOrder natMatch exBody2State exInOrder4
      = (none, { exBody2State with notQueue := [], cursor := 2, vars := 1 }) :=
  (claim_C4_inOrder natMatch exBody2State exInOrder4 (by decide)).2.2 1 1
    (by decide) (by decide) (by decide)
    (fun j hj1 hj2 => by
      have hj : j = 0 := by omega
      subst hj
      decide)
    (by decide)

/-!
### C5 - DAG queue flushing
-/

/-- C5: flushing an empty DAG queue over `[cursor, len)` changes
nothing.  A successful flush of a non-empty queue matches the queued
statements in their original list order, each against the earliest line
of the scope not already claimed by an earlier statement of the group,
with bindings threaded sequentially in group order (`DagMatchSeq`); the
matched indices are pairwise distinct; the NOT queue is verified over
`[cursor, min(matched))`; the cursor becomes `max(matched) + 1`, the
bindings become the last statement's result, and `dagQueue` is
cleared. -/
theorem claim_C5_dagFlush (matchLines : TestStatement σ → L → ν → Option ν)
    (s : ExecutionState σ L ν)
    (hvar : ∀ st ∈ s.dagQueue, st.variant = Variant.DAG) :
    (s.dagQueue = [] →
      ExecutionState.handleDagQueue matchLines s ⟨s.cursor, s.c1Length⟩ = (none, s)) ∧
    (∀ s', ExecutionState.handleDagQueue matchLines s ⟨s.cursor, s.c1Length⟩ = (none, s') →
      s.dagQueue ≠ [] →
      ∃ lines v, lines ≠ [] ∧ lines.Nodup ∧
        DagMatchSeq matchLines s.body ⟨s.cursor, s.c1Length⟩
          s.dagQueue [] s.vars lines v ∧
        notQueueLoop matchLines s.body s.vars ⟨s.cursor, listMin lines⟩
          s.notQueue = none ∧
        s' = { s with
               dagQueue := [], notQueue := [],
               cursor := listMax lines + 1, vars := v }) := by
  refine ⟨fun h => handleDagQueue_nil h, ?_⟩
  intro s' h hne
  rcases handleDagQueue_none_inv h with ⟨hnil, _⟩ | ⟨ls, v, _, hlsne, hdl, _, hq, rfl⟩
  · exact absurd hnil hne
  · obtain ⟨newLines, hls, hseq⟩ := dagLoop_ok_seq _ _ _ _ _ hvar hdl
    rw [List.nil_append] at hls
    subst hls
    exact ⟨ls, v, hlsne, (dagMatchSeq_props _ _ _ _ _ hseq).1, hseq, hq, rfl⟩

/-- Two DAG statements declared in the order (matches line value 10,
matches line value 20) against the body `[20, 10]`: they match lines 1
and 0 respectively - out of textual order. -/
def exDagState : ExecutionState Nat Nat Nat :=
  ⟨0, [20, 10], 2, 0, [⟨Variant.DAG, 10⟩, ⟨Variant.DAG, 20⟩], []⟩

def exDagStateFinal : ExecutionState Nat Nat Nat := ⟨2, [20, 10], 2, 2, [], []⟩

/-- Witness for C5 at the concrete unordered group. -/
theorem claim_C5_witness :
    ∃ lines v, lines ≠ [] ∧ lines.Nodup ∧
      DagMatchSeq natMatch exDagState.body ⟨exDagState.cursor, exDagState.c1Length⟩
        exDagState.dagQueue [] exDagState.vars lines v ∧
      notQueueLoop natMatch exDagState.body exDagState.vars
        ⟨exDagState.cursor, listMin lines⟩ exDagState.notQueue = none ∧
      exDagStateFinal = { exDagState with
                          dagQueue := [], notQueue := [],
                          cursor := listMax lines + 1, vars := v } :=
  (claim_C5_dagFlush natMatch exDagState (by decide)).2 exDagStateFinal
    (by decide) (by decide)

/-!
### C6 - NOT-queue verification
-/

/-- C6: verifying the NOT queue over a scope `[a, b)` fails exactly when
some line index of the scope satisfies some queued Not statement under
the current bindings; on failure the reported exception names such a
statement, such a line index and exactly the bindings in effect, and the
state is untouched; on success only the `notQueue` is cleared, so Not
statements never carry over past a flush point. -/
theorem claim_C6_notQueue (matchLines : TestStatement σ → L → ν → Option ν)
    (s : ExecutionState σ L ν) (scope : MatchScope)
    (hvar : ∀ st ∈ s.notQueue, st.variant = Variant.Not)
    (hlen : scope.stop ≤ s.body.length) :
    ((ExecutionState.handleNotQueue matchLines s scope).1 = none ↔
      ∀ st ∈ s.notQueue, ∀ j, scope.start ≤ j → j < scope.stop →
        matchAt matchLines st s.body s.vars j = none) ∧
    ((ExecutionState.handleNotQueue matchLines s scope).1 = none →
      (ExecutionState.handleNotQueue matchLines s scope).2 = { s with notQueue := [] }) ∧
    (∀ e, (ExecutionState.handleNotQueue matchLines s scope).1 = some e →
      (ExecutionState.handleNotQueue matchLines s scope).2 = s ∧
      ∃ st j nv, st ∈ s.notQueue ∧ scope.start ≤ j ∧ j < scope.stop ∧
        matchAt matchLines st s.body s.vars j = some nv ∧
        e = .matchFailed ⟨st, j, s.vars⟩) := by
  cases hq : notQueueLoop matchLines s.body s.vars scope s.notQueue with
  | some e' =>
    rw [handleNotQueue_of_some hq]
    obtain ⟨st, j, nv, hst, h1, h2, h3, he⟩ := notQueueLoop_some hlen _ hvar e' hq
    refine ⟨⟨fun h => Option.noConfusion h, fun hall => ?_⟩,
      fun h => Option.noConfusion h, fun e he2 => ?_⟩
    · rw [hall st hst j h1 h2] at h3
      exact Option.noConfusion h3
    · injection he2 with he2
      exact ⟨rfl, st, j, nv, hst, h1, h2, h3, he2.symm.trans he⟩
  | none =>
    rw [handleNotQueue_of_none hq]
    exact ⟨iff_of_true rfl ((notQueueLoop_none_iff hlen _ hvar).mp hq),
      fun _ => rfl, fun e he => Option.noConfusion he⟩

/-- A state whose queued NOT statement matches line 0 of the body. -/
def exNotViol : ExecutionState Nat Nat Nat := ⟨0, [9], 1, 0, [], [⟨Variant.Not, 9⟩]⟩

/-- Witness for C6: the violation is reported with the offending Not
statement, the line index 0 and the bindings in effect. -/
theorem claim_C6_witness :
    (ExecutionState.handleNotQueue natMatch exNotViol ⟨0, 1⟩).2 = exNotViol ∧
    ∃ st j nv, st ∈ exNotViol.notQueue ∧ (0 : Nat) ≤ j ∧ j < 1 ∧
      matchAt natMatch st exNotViol.body exNotViol.vars j = some nv ∧
      PyError.matchFailed ⟨⟨Variant.Not, 9⟩, 0, 0⟩
        = PyError.matchFailed ⟨st, j, exNotViol.vars⟩ :=
  (claim_C6_notQueue natMatch exNotViol ⟨0, 1⟩ (by decide) (by decide)).2.2
    (.matchFailed ⟨⟨Variant.Not, 9⟩, 0, 0⟩) (by decide)

/-!
### C9 - orchestrator failure handling
-/

/-- C9: when a selected test case's run raises `MatchFailedException`,
the orchestrator catches it, reports a per-test-case failure carrying
the statement, the absolute line number `c1Pass.startLineNo + e.lineNo`
and the bindings snapshot, and the remaining test cases are still
processed exactly as they would have been on their own. -/
theorem claim_C9_orchestrator (matchLines : TestStatement σ → L → ν → Option ν)
    (evaluateLine : TestStatement σ → ν → Bool) (noneVars emptyVars : ν)
    (tc : TestCase σ) (rest : List (TestCase σ)) (passes : List (C1visualizerPass L))
    (targetArch : String) (debuggableMode : Bool) (c1Pass : C1visualizerPass L)
    (e : MatchFailedException σ ν) (s' : ExecutionState σ L ν)
    (harch : tc.testArch = none ∨ tc.testArch = some targetArch)
    (hdbg : tc.forDebuggable = debuggableMode)
    (hfind : findPass passes tc.name = some c1Pass)
    (hrun : MatchTestCase matchLines evaluateLine noneVars emptyVars tc c1Pass
      = (some (.matchFailed e), s')) :
    MatchFiles matchLines evaluateLine noneVars emptyVars (tc :: rest) passes
      targetArch debuggableMode
      = Except.map (fun rs => TestResult.failed tc.name e.statement
          (c1Pass.startLineNo + e.lineNo) e.vars :: rs)
        (MatchFiles matchLines evaluateLine noneVars emptyVars rest passes
          targetArch debuggableMode) := by
  have h1 : ¬(tc.testArch ≠ none ∧ tc.testArch ≠ some targetArch) := by
    rcases harch with h | h
    · exact fun hcon => hcon.1 h
    · exact fun hcon => hcon.2 h
  have h2 : ¬(tc.forDebuggable ≠ debuggableMode) := fun hne => hne hdbg
  rw [MatchFiles, if_neg h1, if_neg h2]
  simp only [hfind, hrun]

def exTcFail : TestCase Nat := ⟨"p", [exEvalStmt], none, false⟩

def exTcGood : TestCase Nat := ⟨"p", [], none, false⟩

def exPassB : C1visualizerPass Nat := ⟨"p", [], 7⟩

def exFailExc : MatchFailedException Nat Nat := ⟨exEvalStmt, 0, 0⟩

/-- Witness for C9: the first test case fails on an Eval statement, is
reported at absolute line `7 + 0`, and the second test case is still
processed. -/
theorem claim_C9_witness :
    MatchFiles natMatch natEvalFalse 99 0 [exTcFail, exTcGood] [exPassB] "arm" false
      = Except.map (fun rs => TestResult.failed exTcFail.name exFailExc.statement
          (exPassB.startLineNo + exFailExc.lineNo) exFailExc.vars :: rs)
        (MatchFiles natMatch natEvalFalse 99 0 [exTcGood] [exPassB] "arm" false) :=
  claim_C9_orchestrator natMatch natEvalFalse 99 0 exTcFail [exTcGood] [exPassB]
    "arm" false exPassB exFailExc ⟨0, [], 0, 0, [], []⟩
    (Or.inl rfl) rfl (by decide) (by decide)

end Checker
